import Mathlib

/-!
Shallow embedding of the route-to-depot assignment optimizer
(src/model/assign_lp.py, src/cli.py, src/config.py).

Conventions of the embedding:
- Python dicts become association lists (`List (key × value)`) looked up by
  first match (`alookup`); dict insertion/overwrite is `upsert`.
- Cost entries read from the JSON matrices are `CostVal`: `fin q` for a
  finite float (modelled as a rational) and `infty` for a non-finite float.
  A missing entry is `none` at the lookup level.
- Python `round` (banker's rounding, half to even) is `roundHalfEven`;
  `round(v, 2)` is `round2`.
- The external MILP solver (pulp) is abstracted as an `Oracle` returning the
  variable values of a solver-confirmed optimal solution, or `none` when the
  solve does not end with an optimal status.
- Exceptions become `Except` with structured errors mirroring the raised
  ValueError / RuntimeError messages.
-/

/-- A cost matrix entry: a finite float value, or a non-finite one
(Infinity as parsed by `json.load`). -/
inductive CostVal where
  | fin (q : ℚ)
  | infty
deriving DecidableEq

abbrev Fila := List (String × CostVal)

abbrev Matriz := List (String × Fila)

/-- First-match association-list lookup, the semantics of a Python dict with
unique keys. -/
def alookup {α β : Type} [DecidableEq α] : List (α × β) → α → Option β
  | [], _ => none
  | e :: rest, k => if e.1 = k then some e.2 else alookup rest k

/-- The keys of an association list, in order. -/
def akeys {α β : Type} (l : List (α × β)) : List α :=
  l.map Prod.fst

/-- Python dict assignment `d[k] = v`: overwrite in place when the key
exists, append otherwise. -/
def upsert {α β : Type} [DecidableEq α] (l : List (α × β)) (k : α) (v : β) :
    List (α × β) :=
  if k ∈ akeys l then l.map (fun e => if e.1 = k then (k, v) else e)
  else l ++ [(k, v)]

/-- Case analysis on an Option, named so that proofs can rewrite it. -/
def optElim {a b : Type} (o : Option a) (x : b) (f : a → b) : b :=
  match o with
  | none => x
  | some v => f v

/-- Case analysis on an Except, named so that proofs can rewrite it. -/
def exceptCases {eps a b : Type} (e : Except eps a) (onErr : eps → b) (onOk : a → b) : b :=
  match e with
  | .error err => onErr err
  | .ok v => onOk v

/-- `costos.get(p, {}).get(r)` on a nested cost matrix. -/
def mlookup (m : Matriz) (p r : String) : Option CostVal :=
  match alookup m p with
  | none => none
  | some fila => alookup fila r

/-- Python `round(q)`: round half to even, on exact rationals. -/
def roundHalfEven (q : ℚ) : ℤ :=
  let f := ⌊q⌋
  let r := q - (f : ℚ)
  if r < 1/2 then f
  else if 1/2 < r then f + 1
  else if f % 2 = 0 then f else f + 1

/-- Python `round(q, 2)`. -/
def round2 (q : ℚ) : ℚ :=
  (roundHalfEven (q * 100) : ℚ) / 100

namespace Config

/-- Config.CAPACIDAD_PATIO_DEFAULT in src/config.py. -/
def CAPACIDAD_PATIO_DEFAULT : ℤ := 15

/-- Config.SOLVER_TIME_LIMIT in src/config.py (seconds). -/
def SOLVER_TIME_LIMIT : ℕ := 300

/-- Config.SOLVER_GAP in src/config.py (0.02); defined by the configuration
but never passed to any solver construction. -/
def SOLVER_GAP : ℚ := 1/50

/-- Config.VELOCIDAD_PROMEDIO in src/config.py (km/h). -/
def VELOCIDAD_PROMEDIO : ℚ := 20

end Config

/-- The objective selector (`objetivo` argument: "distancia" or "tiempo"). -/
inductive Objetivo where
  | distancia
  | tiempo
deriving DecidableEq

/-- The constructor arguments of ModeloAsignacionLP, after the constructor's
normalization (`kmax` is kept only when positive, so the field here is the
normalized value). -/
structure Cfg where
  objetivo : Objetivo := .distancia
  relax : Bool := false
  cap_multiplier : ℚ := 1
  capacity_override : List (String × ℤ) := []
  overflow_penalty_km : Option ℚ := none
  lp_solver : String := "cbc"
  kmax : Option ℕ := none
  max_distance_km : Option ℚ := none
deriving DecidableEq

/-- The four input tables read by cargar_datos: matriz_distancias.json,
matriz_tiempos.json, pvr_por_ruta.csv and capacidades_patios.json. -/
structure Datos where
  distancias : Matriz
  tiempos : Matriz
  pvr : List (String × ℤ)
  capacidades : List (String × ℤ)
deriving DecidableEq

/-- One depot of the capacity scaling loop of cargar_datos: the override
value when supplied, else `round(cap * multiplier)`; floored at 0. -/
def capEscalada (override : List (String × ℤ)) (mult : ℚ) (k : String) (cap : ℤ) : ℤ :=
  max 0 (optElim (alookup override k) (roundHalfEven ((cap : ℚ) * mult)) (fun v => v))

/-- The scaled capacity table of cargar_datos. -/
def scaledCaps (override : List (String × ℤ)) (mult : ℚ) (raw : List (String × ℤ)) :
    List (String × ℤ) :=
  raw.map (fun e => (e.1, capEscalada override mult e.1 e.2))

/-- The model state mutated by _add_overflow_patio before the compatibility
matrix is built. -/
structure PreDatos where
  distancias : Matriz
  tiempos : Matriz
  capacidades : List (String × ℤ)
  patios : List String
deriving DecidableEq

/-- The structured content of the ValueError messages cargar_datos and
_add_overflow_patio can raise. -/
inductive LoadError where
  | overflowSinCostos (ruta : String)
  | sinCobertura (rutas : List String)
  | capacidadInsuficiente (totalPvr capTotalBase : ℤ)
deriving DecidableEq

def overflowId : String := "overflow"

/-- Larger of two cost entries; a non-finite entry dominates, as Python `max`
over floats containing inf. -/
def CostVal.maxv : CostVal → CostVal → CostVal
  | .infty, _ => .infty
  | _, .infty => .infty
  | .fin a, .fin b => .fin (max a b)

/-- Multiply a cost entry by a positive factor. -/
def CostVal.scale (f : ℚ) : CostVal → CostVal
  | .infty => .infty
  | .fin q => .fin (f * q)

/-- Python `round(c, 2)` on a possibly non-finite cost. -/
def CostVal.round2v : CostVal → CostVal
  | .infty => .infty
  | .fin q => .fin (round2 q)

def CostVal.esFinito : CostVal → Bool
  | .fin _ => true
  | .infty => false

/-- `[self.distancias[p][ruta] for p in self.patios if ruta in self.distancias[p]]`. -/
def presentCosts (dist : Matriz) (patios : List String) (r : String) : List CostVal :=
  patios.filterMap (fun p => mlookup dist p r)

/-- The loop body of _add_overflow_patio: per route, the maximum cost found
among the depots that have an entry, the penalized distance cost and the
derived time cost (penalty / VELOCIDAD_PROMEDIO * 60, which with the
configured speed of 20 is penalty * 3); a route with no entry at any depot
raises. -/
def overflowEntries (dist : Matriz) (patios : List String) (f : ℚ) :
    List String → Except LoadError (Fila × Fila)
  | [] => .ok ([], [])
  | r :: rs =>
    match presentCosts dist patios r with
    | [] => .error (.overflowSinCostos r)
    | c :: cs =>
      match overflowEntries dist patios f rs with
      | .error e => .error e
      | .ok (ocs, ots) =>
        let pen := CostVal.scale f (cs.foldl CostVal.maxv c)
        .ok ((r, pen.round2v) :: ocs, (r, (CostVal.scale 3 pen).round2v) :: ots)

/-- _add_overflow_patio: early return when a depot named "overflow" already
exists in the distance matrix; otherwise compute per-route penalty costs and
append the virtual depot with capacity int(1e9). -/
def addOverflowPatio (f : ℚ) (pre : PreDatos) (rutas : List String) :
    Except LoadError PreDatos :=
  if overflowId ∈ akeys pre.distancias then .ok pre
  else
    exceptCases (overflowEntries pre.distancias pre.patios f rutas)
      (fun e => .error e)
      (fun pair =>
        .ok { distancias := upsert pre.distancias overflowId pair.1,
              tiempos := upsert pre.tiempos overflowId pair.2,
              capacidades := upsert pre.capacidades overflowId (10 ^ 9),
              patios := pre.patios ++ [overflowId] })

/-- cargar_datos up to (and including) the optional overflow injection:
scaled capacities, depot list = distance-matrix keys, route list = pvr keys. -/
def preCero (cfg : Cfg) (datos : Datos) : PreDatos :=
  { distancias := datos.distancias, tiempos := datos.tiempos,
    capacidades := scaledCaps cfg.capacity_override cfg.cap_multiplier datos.capacidades,
    patios := akeys datos.distancias }

def preOverflow (cfg : Cfg) (datos : Datos) : Except LoadError PreDatos :=
  optElim cfg.overflow_penalty_km (.ok (preCero cfg datos))
    (fun f => addOverflowPatio f (preCero cfg datos) (akeys datos.pvr))

/-- The matrix chosen by the active objective. -/
def costosActivos (cfg : Cfg) (dist tiem : Matriz) : Matriz :=
  match cfg.objetivo with
  | .distancia => dist
  | .tiempo => tiem

/-- A present and finite cost entry. -/
def esCostoFin : Option CostVal → Bool
  | some (.fin _) => true
  | _ => false

/-- The optional distance-threshold filter of _build_compatibility_matrix:
applied only when a threshold is configured and the active objective is
distance; the pair is dropped when the distance value is missing or
exceeds the threshold (a non-finite distance compares as larger). -/
def pasaUmbral (cfg : Cfg) (dist : Matriz) (r p : String) : Bool :=
  match cfg.max_distance_km, cfg.objetivo with
  | some umbral, .distancia =>
    match mlookup dist p r with
    | some (.fin d) => decide (d ≤ umbral)
    | _ => false
  | _, _ => true

/-- _build_compatibility_matrix, one entry: a finite cost must exist for the
active objective, and the optional distance threshold must pass. -/
def compatible (cfg : Cfg) (dist tiem : Matriz) (r p : String) : Bool :=
  esCostoFin (mlookup (costosActivos cfg dist tiem) p r) && pasaUmbral cfg dist r p

/-- The routes with no compatible depot at all (the fatal coverage check). -/
def rutasSinCobertura (cfg : Cfg) (pre : PreDatos) (rutas0 : List String) :
    List String :=
  rutas0.filter (fun r => pre.patios.all (fun p => !compatible cfg pre.distancias pre.tiempos r p))

/-- The state cargar_datos leaves on the model when it returns normally. -/
structure LoadedState where
  distancias : Matriz
  tiempos : Matriz
  pvr : List (String × ℤ)
  capacidades : List (String × ℤ)
  cap_total_base : ℤ
  patios : List String
  rutas : List String
  cap_total : ℤ
  total_pvr : ℤ
  cap_deficit : ℤ
deriving DecidableEq, Inhabited

/-- The routes kept after the coverage filter (those with some compatible
depot). -/
def rutasCubiertas (cfg : Cfg) (pre : PreDatos) (rutas0 : List String) :
    List String :=
  rutas0.filter (fun r => pre.patios.any (fun p => compatible cfg pre.distancias pre.tiempos r p))

/-- Total demand over a set of routes (`sum(self.pvr[r] for r in self.rutas)`). -/
def totalPvrSobre (datos : Datos) (rutas : List String) : ℤ :=
  (rutas.map (fun r => (alookup datos.pvr r).getD 0)).sum

/-- Total scaled base capacity, the value of `self.cap_total_base` (computed
before any overflow depot is appended). -/
def capTotalBaseDe (cfg : Cfg) (datos : Datos) : ℤ :=
  ((scaledCaps cfg.capacity_override cfg.cap_multiplier datos.capacidades).map Prod.snd).sum

/-- Sequencing of fallible steps (`match` on the first error), named so that
proofs can rewrite it. -/
def exceptBind {eps a b : Type} (e : Except eps a) (f : a → Except eps b) :
    Except eps b :=
  match e with
  | .error err => .error err
  | .ok v => f v

/-- The part of cargar_datos that runs after the overflow injection:
coverage validation, route filtering and the total-capacity check. -/
def cargarDatosAux (cfg : Cfg) (datos : Datos) (pre : PreDatos) :
    Except LoadError LoadedState :=
  if rutasSinCobertura cfg pre (akeys datos.pvr) = [] then
    if cfg.overflow_penalty_km = none ∧
        capTotalBaseDe cfg datos < totalPvrSobre datos (rutasCubiertas cfg pre (akeys datos.pvr)) then
      .error (.capacidadInsuficiente
        (totalPvrSobre datos (rutasCubiertas cfg pre (akeys datos.pvr)))
        (capTotalBaseDe cfg datos))
    else
      .ok { distancias := pre.distancias, tiempos := pre.tiempos,
            pvr := datos.pvr, capacidades := pre.capacidades,
            cap_total_base := capTotalBaseDe cfg datos, patios := pre.patios,
            rutas := rutasCubiertas cfg pre (akeys datos.pvr),
            cap_total := (pre.capacidades.map Prod.snd).sum,
            total_pvr := totalPvrSobre datos (rutasCubiertas cfg pre (akeys datos.pvr)),
            cap_deficit := max 0
              (totalPvrSobre datos (rutasCubiertas cfg pre (akeys datos.pvr))
                - capTotalBaseDe cfg datos) }
  else .error (.sinCobertura ((rutasSinCobertura cfg pre (akeys datos.pvr)).take 10))

/-- cargar_datos: scale capacities, optionally inject the overflow depot,
build the compatibility matrix, fail on a route with no compatible depot
(listing the first 10), filter covered routes, and fail when total demand
exceeds total base capacity and no overflow is enabled. -/
def cargarDatos (cfg : Cfg) (datos : Datos) : Except LoadError LoadedState :=
  exceptBind (preOverflow cfg datos) (cargarDatosAux cfg datos)

/-- The compatibility matrix A[r, p] as held by the loaded model. -/
def matrizA (cfg : Cfg) (st : LoadedState) (r p : String) : Bool :=
  compatible cfg st.distancias st.tiempos r p

/-- `int(self.pvr[r])`, the demand used in the constraints. -/
def pvrOf (st : LoadedState) (r : String) : ℤ :=
  (alookup st.pvr r).getD 0

/-- `int(self.capacidades.get(p, Config.CAPACIDAD_PATIO_DEFAULT))`, the bound
of the capacity constraint of depot p. -/
def capacidadEfectiva (st : LoadedState) (p : String) : ℤ :=
  (alookup st.capacidades p).getD Config.CAPACIDAD_PATIO_DEFAULT

/-- Sum of x[r, p] over the depots compatible with r (constraint (1) of
construir_modelo sums only over pairs with A = 1). -/
def sumxCompatPatios (cfg : Cfg) (st : LoadedState) (x : String → String → ℚ)
    (r : String) : ℚ :=
  ((st.patios.filter (fun p => matrizA cfg st r p)).map (fun p => x r p)).sum

/-- Sum of x[r, p] over the routes compatible with p (constraint (2)). -/
def sumxCompatRutas (cfg : Cfg) (st : LoadedState) (x : String → String → ℚ)
    (p : String) : ℚ :=
  ((st.rutas.filter (fun r => matrizA cfg st r p)).map (fun r => x r p)).sum

/-- Sum of z[r, p] over the depots compatible with r (constraint (4a)). -/
def sumzCompat (cfg : Cfg) (st : LoadedState) (z : String → String → ℤ)
    (r : String) : ℤ :=
  ((st.patios.filter (fun p => matrizA cfg st r p)).map (fun p => z r p)).sum

/-- The constraint set of the aggregate model exactly as construir_modelo
emits it, as a decidable feasibility check on variable values:
nonnegativity (lowBound=0), integrality when not relaxed (denominator 1),
per-route demand equality over compatible depots, per-depot capacity bound
over compatible routes, incompatible pairs pinned to zero, the
x <= A * PVR bound on compatible pairs, and, when kmax is configured, binary
z variables with the (4a) per-route count bound over compatible depots and
the (4b) coupling x <= PVR * z on compatible pairs. -/
def factibleB (cfg : Cfg) (st : LoadedState) (x : String → String → ℚ)
    (z : String → String → ℤ) : Bool :=
  (st.rutas.all fun r => st.patios.all fun p => decide (0 ≤ x r p)) &&
  (cfg.relax ||
    (st.rutas.all fun r => st.patios.all fun p => decide ((x r p).den = 1))) &&
  (st.rutas.all fun r =>
    decide (sumxCompatPatios cfg st x r = (pvrOf st r : ℚ))) &&
  (st.patios.all fun p =>
    decide (sumxCompatRutas cfg st x p ≤ (capacidadEfectiva st p : ℚ))) &&
  (st.rutas.all fun r => st.patios.all fun p =>
    matrizA cfg st r p || decide (x r p = 0)) &&
  (st.rutas.all fun r => st.patios.all fun p =>
    !matrizA cfg st r p || decide (x r p ≤ (pvrOf st r : ℚ))) &&
  (match cfg.kmax with
   | none => true
   | some k =>
     (st.rutas.all fun r => st.patios.all fun p => decide (z r p = 0 ∨ z r p = 1)) &&
     (st.rutas.all fun r => decide (sumzCompat cfg st z r ≤ (k : ℤ))) &&
     (st.rutas.all fun r => st.patios.all fun p =>
       !matrizA cfg st r p || decide (x r p ≤ (pvrOf st r : ℚ) * (z r p : ℚ))))

/-- A variable assignment is feasible for the built model. -/
def Factible (cfg : Cfg) (st : LoadedState) (x : String → String → ℚ)
    (z : String → String → ℤ) : Prop :=
  factibleB cfg st x z = true

/-- The cost coefficient used by the objective for a compatible pair
(`costos[p][r]`; on compatible pairs the entry exists and is finite). -/
def costQ (m : Matriz) (p r : String) : ℚ :=
  match mlookup m p r with
  | some (.fin q) => q
  | _ => 0

/-- The value of the objective function of construir_modelo at a variable
assignment: sum of cost times x over compatible pairs. -/
def objectiveValue (cfg : Cfg) (st : LoadedState) (x : String → String → ℚ) : ℚ :=
  (st.rutas.map (fun r =>
    ((st.patios.filter (fun p => matrizA cfg st r p)).map
      (fun p => costQ (costosActivos cfg st.distancias st.tiempos) p r * x r p)).sum)).sum

/-- One row of the exported assignment list (asignaciones_lp.csv): the cost
column always comes from the distance matrix. -/
structure Asig where
  geo_code : String
  patio_id : String
  buses : ℚ
  costo : CostVal
deriving DecidableEq

/-- exportar: keep the pairs with solved value strictly positive that pass
the defensive compatibility-and-presence re-check, in variable creation
order (routes outer, depots inner). -/
def exportarAsigs (cfg : Cfg) (st : LoadedState) (x : String → String → ℚ) :
    List Asig :=
  (st.rutas.map (fun r => st.patios.filterMap (fun p =>
    if 0 < x r p then
      match matrizA cfg st r p, mlookup st.distancias p r with
      | true, some c => some ⟨r, p, x r p, c⟩
      | _, _ => none
    else none))).flatten

/-- Total buses exported for one route (the groupby sum, 0 when absent). -/
def busesDeRuta (asigs : List Asig) (r : String) : ℚ :=
  ((asigs.filter (fun a => a.geo_code == r)).map Asig.buses).sum

/-- The external MILP solver: given the configuration and the loaded model,
the variable values of a solver-confirmed optimal solution, or none when the
terminal status is not optimal. -/
abbrev Oracle := Cfg → LoadedState → Option (String → String → ℚ)

/-- The content of the `notas` column of the sensitivity tables: empty,
the str of a caught construction ValueError, or the no-optimal message. -/
inductive Nota where
  | vacia
  | errorCarga (e : LoadError)
  | sinOptimo
deriving DecidableEq

/-- One row of sensitivity_capacities.csv. -/
structure SensRecord where
  scale : ℚ
  objective_km : Option ℚ
  patios_saturados : List String
  rutas_sin_asignacion : List String
  notas : Nota
deriving DecidableEq

/-- The model configuration _compute_sensitivity builds for one scale
factor: distance objective, integer variables, no overrides, no kmax, no
distance threshold. -/
def cfgSens (scale : ℚ) (overflow : Option ℚ) (solver : String) : Cfg :=
  { objetivo := .distancia, relax := false, cap_multiplier := scale,
    capacity_override := [], overflow_penalty_km := overflow,
    lp_solver := solver, kmax := none, max_distance_km := none }

/-- The record _compute_sensitivity returns when construction or the solve
fails for a factor: null objective, empty sets, a textual note. -/
def recordFallo (scale : ℚ) (n : Nota) : SensRecord :=
  { scale := scale, objective_km := none, patios_saturados := [],
    rutas_sin_asignacion := [], notas := n }

/-- The success record of _compute_sensitivity: the objective, the depots
with capacity slack below 1e-5, and the routes whose exported total deviates
from demand by more than 1e-3. -/
def recordExito (cfg : Cfg) (st : LoadedState) (x : String → String → ℚ)
    (scale : ℚ) : SensRecord :=
  { scale := scale,
    objective_km := some (objectiveValue cfg st x),
    patios_saturados := st.patios.filter (fun p =>
      decide (|(capacidadEfectiva st p : ℚ) - sumxCompatRutas cfg st x p| < 1/100000)),
    rutas_sin_asignacion := st.rutas.filter (fun r =>
      decide (1/1000 < |busesDeRuta (exportarAsigs cfg st x) r - (pvrOf st r : ℚ)|)),
    notas := .vacia }

/-- _compute_sensitivity: build and solve at one scale factor; on a caught
construction ValueError or a non-optimal solve return a failure record and
no model, otherwise the success record and the solved model. -/
def computeSensitivity (oracle : Oracle) (datos : Datos) (scale : ℚ)
    (overflow : Option ℚ) (solver : String) :
    SensRecord × Option (LoadedState × (String → String → ℚ)) :=
  exceptCases (cargarDatos (cfgSens scale overflow solver) datos)
    (fun e => (recordFallo scale (.errorCarga e), none))
    (fun st =>
      optElim (oracle (cfgSens scale overflow solver) st)
        ((recordFallo scale .sinOptimo, none))
        (fun x => (recordExito (cfgSens scale overflow solver) st x scale, some (st, x))))

abbrev FeasList := List (ℚ × LoadedState × (String → String → ℚ))

/-- One iteration of the scale loop of cmd_sensitivity: always append the
record; remember the model in the feasible dict when the solve succeeded. -/
def sweepStep (oracle : Oracle) (datos : Datos) (overflow : Option ℚ)
    (solver : String) (acc : List SensRecord × FeasList) (scale : ℚ) :
    List SensRecord × FeasList :=
  ((acc.1 ++ [(computeSensitivity oracle datos scale overflow solver).1]),
   optElim (computeSensitivity oracle datos scale overflow solver).2 acc.2
     (fun st_x => upsert acc.2 scale st_x))

/-- The full scale sweep (Stage A) of cmd_sensitivity. -/
def sweepFold (oracle : Oracle) (datos : Datos) (overflow : Option ℚ)
    (solver : String) (scales : List ℚ) : List SensRecord × FeasList :=
  scales.foldl (sweepStep oracle datos overflow solver) ([], [])

/-- `max(feasible_models.keys())`. -/
def maxScale : FeasList → ℚ
  | [] => 0
  | e :: rest => rest.foldl (fun acc f => max acc f.1) e.1

/-- One row of shadow_like_by_depot.csv. -/
structure ShadowRow where
  patio_id : String
  scale_base : ℚ
  base_capacity : ℤ
  base_objective_km : ℚ
  objective_with_plus1 : Option ℚ
  delta_objective_km : Option ℚ
  notas : Nota
deriving DecidableEq

/-- The perturbed model configuration of Stage B: same scale as the
baseline, capacity override only for the perturbed depot at base + 1,
overflow and kmax disabled, distance objective, defaulted cbc solver. -/
def cfgShadow (baseScale : ℚ) (patio : String) (cap : ℤ) : Cfg :=
  { objetivo := .distancia, relax := false, cap_multiplier := baseScale,
    capacity_override := [(patio, cap + 1)], overflow_penalty_km := none,
    lp_solver := "cbc", kmax := none, max_distance_km := none }

/-- The shared columns of one Stage B row. -/
def shadowBase (baseScale : ℚ) (baseObj : ℚ) (pc : String × ℤ) (n : Nota) :
    ShadowRow :=
  { patio_id := pc.1, scale_base := baseScale, base_capacity := pc.2,
    base_objective_km := baseObj, objective_with_plus1 := none,
    delta_objective_km := none, notas := n }

/-- One Stage B perturbation: build and solve an independent model with the
depot perturbed; on any caught failure record a null objective with a note,
otherwise delta = baseline objective minus perturbed objective. -/
def shadowRowFor (oracle : Oracle) (datos : Datos) (baseScale : ℚ)
    (baseObj : ℚ) (pc : String × ℤ) : ShadowRow :=
  exceptCases (cargarDatos (cfgShadow baseScale pc.1 pc.2) datos)
    (fun e => shadowBase baseScale baseObj pc (.errorCarga e))
    (fun st =>
      optElim (oracle (cfgShadow baseScale pc.1 pc.2) st)
        (shadowBase baseScale baseObj pc .sinOptimo)
        (fun x =>
          { shadowBase baseScale baseObj pc .vacia with
            objective_with_plus1 := some (objectiveValue (cfgShadow baseScale pc.1 pc.2) st x),
            delta_objective_km :=
              some (baseObj - objectiveValue (cfgShadow baseScale pc.1 pc.2) st x) }))

/-- Stage B of cmd_sensitivity: when some scenario was feasible, take the
feasible scale with the largest value as baseline and perturb every depot of
the baseline capacity dict by +1; otherwise no table is produced. -/
def stageB (oracle : Oracle) (datos : Datos) (overflow : Option ℚ)
    (solver : String) : FeasList → Option (List ShadowRow)
  | [] => none
  | f :: fs =>
    optElim (alookup (f :: fs) (maxScale (f :: fs))) none
      (fun st_x =>
        some (st_x.1.capacidades.map (shadowRowFor oracle datos (maxScale (f :: fs))
          (objectiveValue (cfgSens (maxScale (f :: fs)) overflow solver) st_x.1 st_x.2))))

/-- cmd_sensitivity: run the sweep over the requested factors (default [1.0]
when the list is empty), then Stage B, and return exit status 0. -/
def cmdSensitivity (oracle : Oracle) (datos : Datos) (scales : List ℚ)
    (overflow : Option ℚ) (solver : String) :
    List SensRecord × Option (List ShadowRow) × ℤ :=
  ((sweepFold oracle datos overflow solver (if scales = [] then [1] else scales)).1,
   stageB oracle datos overflow solver
     (sweepFold oracle datos overflow solver (if scales = [] then [1] else scales)).2,
   0)

/-- The solver parameters _create_solver passes to the pulp backend
constructors: an optional wall-clock time limit, an optional relative
optimality gap, and the msg flag. -/
structure SolverCfg where
  backend : String
  timeLimit : Option ℕ
  gapRel : Option ℚ
  msg : Bool
deriving DecidableEq

/-- The errors _create_solver raises: ValueError for an unsupported backend
name, RuntimeError for a supported backend that is not available. -/
inductive SolverError where
  | noSoportado (name : String)
  | noDisponible (name : String)
deriving DecidableEq

/-- _create_solver: construct the backend configuration (only cbc receives
the time limit; no backend receives the optimality gap), then check
availability and raise when the backend is unusable. -/
def createSolver (avail : String → Bool) (name : String) :
    Except SolverError SolverCfg :=
  exceptCases
    (if name = "cbc" then
      .ok { backend := "cbc", timeLimit := some Config.SOLVER_TIME_LIMIT,
            gapRel := none, msg := false }
    else if name = "glpk" then
      .ok { backend := "glpk", timeLimit := none, gapRel := none, msg := false }
    else if name = "clp" then
      .ok { backend := "clp", timeLimit := none, gapRel := none, msg := false }
    else (.error (.noSoportado name) : Except SolverError SolverCfg))
    (fun e => .error e)
    (fun s => if avail s.backend then .ok s else .error (.noDisponible name))

/-- resolver: create the solver, then (only on success) run the solve and
report whether the terminal status is optimal. -/
def resolverConSolver (avail : String → Bool) (solve : SolverCfg → Bool)
    (name : String) : Except SolverError Bool :=
  exceptCases (createSolver avail name) (fun e => .error e) (fun s => .ok (solve s))

/-- The errors of the module-level main of assign_lp. -/
inductive MainError where
  | carga (e : LoadError)
  | sinOptimo
deriving DecidableEq

/-- The module-level main of assign_lp: load, build, solve, export; a load
error aborts before any model is built, a non-optimal solve raises. -/
def solveMain (oracle : Oracle) (cfg : Cfg) (datos : Datos) :
    Except MainError (List Asig) :=
  exceptCases (cargarDatos cfg datos)
    (fun e => .error (.carga e))
    (fun st =>
      optElim (oracle cfg st) (.error .sinOptimo)
        (fun x => .ok (exportarAsigs cfg st x)))

/-- The state cargar_datos produces when it succeeds (junk on failure). -/
def stateOf (cfg : Cfg) (datos : Datos) : LoadedState :=
  match cargarDatos cfg datos with
  | .ok st => st
  | .error _ => default

/-- The toy instance of tests/test_lp_small.py: two routes (R1 demand 5,
R2 demand 3), two depots (P1 capacity 4, P2 capacity 6). -/
def datosToy : Datos :=
  { distancias := [("P1", [("R1", .fin 10), ("R2", .fin 12)]),
                   ("P2", [("R1", .fin 15), ("R2", .fin 8)])],
    tiempos := [("P1", [("R1", .fin 30), ("R2", .fin 36)]),
                ("P2", [("R1", .fin 45), ("R2", .fin 24)])],
    pvr := [("R1", 5), ("R2", 3)],
    capacidades := [("P1", 4), ("P2", 6)] }

/-- Default model configuration (distance objective, integer variables,
scale 1, cbc). -/
def cfgToy : Cfg := {}

def stToy : LoadedState := stateOf cfgToy datosToy

/-- The optimal assignment of the toy instance: R1 sends 4 buses to P1 and
1 to P2, R2 sends its 3 buses to P2. -/
def xToy : String → String → ℚ := fun r p =>
  if r = "R1" ∧ p = "P1" then 4
  else if r = "R1" ∧ p = "P2" then 1
  else if r = "R2" ∧ p = "P2" then 3
  else 0

def zCero : String → String → ℤ := fun _ _ => 0

/-- A solver oracle that always returns the toy optimum. -/
def oracleToy : Oracle := fun _ _ => some xToy

/-- The instance of tests/test_compat.py: R2 has no entry at P1, so the pair
(R2, P1) is incompatible. -/
def datosKmax : Datos :=
  { distancias := [("P1", [("R1", .fin 10)]),
                   ("P2", [("R1", .fin 15), ("R2", .fin 8)])],
    tiempos := [("P1", [("R1", .fin 30)]),
                ("P2", [("R1", .fin 45), ("R2", .fin 24)])],
    pvr := [("R1", 5), ("R2", 3)],
    capacidades := [("P1", 10), ("P2", 10)] }

/-- The same configuration with a max-depots-per-route limit of K = 1. -/
def cfgKmax : Cfg := { kmax := some 1 }

def stKmax : LoadedState := stateOf cfgKmax datosKmax

def xKmax : String → String → ℚ := fun r p =>
  if r = "R1" ∧ p = "P1" then 5
  else if r = "R2" ∧ p = "P2" then 3
  else 0

/-- Binding indicators feasible for the K = 1 model: on top of the used
pairs, z is also set on the incompatible pair (R2, P1), which no constraint
of the model touches. -/
def zKmax : String → String → ℤ := fun r p =>
  if r = "R1" ∧ p = "P1" then 1
  else if r = "R2" then 1
  else 0

/-- An instance with a finite cost at P1 and a non-finite cost at P2 for the
same route. -/
def datosInf : Datos :=
  { distancias := [("P1", [("R1", .fin 10)]), ("P2", [("R1", .infty)])],
    tiempos := [("P1", [("R1", .fin 30)]), ("P2", [("R1", .infty)])],
    pvr := [("R1", 2)],
    capacidades := [("P1", 5), ("P2", 5)] }

/-- Overflow requested with penalty factor 2. -/
def cfgInf : Cfg := { overflow_penalty_km := some 2 }

/-- An instance whose overflow penalty cost (1 times the max real cost, 15)
exceeds the configured distance threshold of 12. -/
def datosUmbral : Datos :=
  { distancias := [("P1", [("R1", .fin 10)]), ("P2", [("R1", .fin 15)])],
    tiempos := [("P1", [("R1", .fin 30)]), ("P2", [("R1", .fin 45)])],
    pvr := [("R1", 5)],
    capacidades := [("P1", 20), ("P2", 20)] }

def cfgUmbral : Cfg := { overflow_penalty_km := some 1, max_distance_km := some 12 }

def stUmbral : LoadedState := stateOf cfgUmbral datosUmbral

/-- An instance where the optimum routes all demand through a depot (P2)
that appears in the cost matrices but has no capacity entry. -/
def datosSinCap : Datos :=
  { distancias := [("P1", [("R1", .fin 100)]), ("P2", [("R1", .fin 1)])],
    tiempos := [("P1", [("R1", .fin 300)]), ("P2", [("R1", .fin 3)])],
    pvr := [("R1", 12)],
    capacidades := [("P1", 12)] }

/-- The unique optimum of datosSinCap: all 12 buses of R1 at P2 (which has
the default capacity 15). -/
def xSinCap : String → String → ℚ := fun r p =>
  if r = "R1" ∧ p = "P2" then 12 else 0

/-- A solver oracle returning that optimum for every query made by the
sensitivity run on datosSinCap. -/
def oracleSinCap : Oracle := fun _ _ => some xSinCap

/-- The instance of the coverage test of tests/test_compat.py: route R3 has
no cost entry at any depot. -/
def datosSinCob : Datos :=
  { distancias := [("P1", [("R1", .fin 10)]), ("P2", [("R1", .fin 15)])],
    tiempos := [("P1", [("R1", .fin 30)]), ("P2", [("R1", .fin 45)])],
    pvr := [("R1", 5), ("R3", 3)],
    capacidades := [("P1", 10), ("P2", 10)] }

/-- Whether a load attempt succeeded. -/
def esOk {ε α : Type} : Except ε α → Bool
  | .ok _ => true
  | .error _ => false

deriving instance DecidableEq for Except

instance decFactible (cfg : Cfg) (st : LoadedState) (x : String → String → ℚ)
    (z : String → String → ℤ) : Decidable (Factible cfg st x z) := by
  unfold Factible
  infer_instance


/-- The toy instance with the overflow depot enabled (penalty factor 2) and
no distance threshold. -/
def cfgOverToy : Cfg := { overflow_penalty_km := some 2 }

def stOverToy : LoadedState := stateOf cfgOverToy datosToy

/-- Scale 3 with a capacity override for P2, which is absent from the
capacity table of datosSinCap. -/
def cfgEscala3 : Cfg := { cap_multiplier := 3, capacity_override := [("P2", 99)] }

def stEscala3 : LoadedState := stateOf cfgEscala3 datosSinCap

/-- A solver oracle whose solve never confirms optimality. -/
def oracleNada : Oracle := fun _ _ => none

/-- An environment where every backend is available. -/
def availTodos : String → Bool := fun _ => true

/-- An environment where no backend is available. -/
def availNada : String → Bool := fun _ => false

/-- A solve call that reports an optimal status. -/
def solveTrue : SolverCfg → Bool := fun _ => true

/-- The feasible-models dict of the sweep of datosToy at scale 1. -/
def feasToy : FeasList := (sweepFold oracleToy datosToy none "cbc" [1]).2

/-- The Stage B table of that sweep. -/
def srowsToy : List ShadowRow :=
  (stageB oracleToy datosToy none "cbc" feasToy).getD []

/-- The state the sensitivity baseline loads for datosSinCap at scale 1. -/
def stSinCap : LoadedState := stateOf (cfgSens 1 none "cbc") datosSinCap

/-! Helper lemmas about association lists, sums and the loader. -/

theorem akeys_cons {α β : Type} (e : α × β) (l : List (α × β)) :
    akeys (e :: l) = e.1 :: akeys l := rfl

theorem alookup_cons {α β : Type} [DecidableEq α] (e : α × β) (l : List (α × β))
    (k : α) : alookup (e :: l) k = if e.1 = k then some e.2 else alookup l k := rfl

theorem esOk_eq_ok {ε α : Type} (e : Except ε α) (h : esOk e = true) :
    ∃ a, e = .ok a := by
  cases e with
  | ok a => exact ⟨a, rfl⟩
  | error _ => simp [esOk] at h

theorem cargarDatos_eq_ok (cfg : Cfg) (datos : Datos)
    (h : esOk (cargarDatos cfg datos) = true) :
    cargarDatos cfg datos = .ok (stateOf cfg datos) := by
  obtain ⟨st, hst⟩ := esOk_eq_ok _ h
  rw [hst, stateOf, hst]

theorem alookup_eq_none_iff {α β : Type} [DecidableEq α] (l : List (α × β)) (k : α) :
    alookup l k = none ↔ k ∉ akeys l := by
  induction l with
  | nil => simp [alookup, akeys]
  | cons e rest ih =>
    rw [alookup_cons, akeys_cons]
    by_cases he : e.1 = k
    · simp [if_pos he, he]
    · rw [if_neg he, ih]
      constructor
      · intro h hm
        rcases List.mem_cons.mp hm with h1 | h1
        · exact he h1.symm
        · exact h h1
      · intro h hm
        exact h (List.mem_cons.mpr (Or.inr hm))

theorem alookup_append_left {α β : Type} [DecidableEq α] (l l' : List (α × β))
    (k : α) (v : β) (h : alookup l k = some v) : alookup (l ++ l') k = some v := by
  induction l with
  | nil => simp [alookup] at h
  | cons e rest ih =>
    by_cases he : e.1 = k
    · rw [alookup_cons, if_pos he] at h
      rw [List.cons_append, alookup_cons, if_pos he]
      exact h
    · rw [alookup_cons, if_neg he] at h
      rw [List.cons_append, alookup_cons, if_neg he]
      exact ih h

theorem alookup_append_right {α β : Type} [DecidableEq α] (l l' : List (α × β))
    (k : α) (h : k ∉ akeys l) : alookup (l ++ l') k = alookup l' k := by
  induction l with
  | nil => rfl
  | cons e rest ih =>
    have hne : e.1 ≠ k := by
      intro he
      exact h (by rw [akeys_cons, he]; exact List.mem_cons_self _ _)
    rw [List.cons_append, alookup_cons, if_neg hne]
    exact ih (fun hm => h (by rw [akeys_cons]; exact List.mem_cons_of_mem _ hm))

theorem alookup_map_value {α β γ : Type} [DecidableEq α] (l : List (α × β))
    (g : α → β → γ) (k : α) :
    alookup (l.map (fun e => (e.1, g e.1 e.2))) k = (alookup l k).map (g k) := by
  induction l with
  | nil => rfl
  | cons e rest ih =>
    show (if e.1 = k then some (g e.1 e.2) else alookup (rest.map _) k)
      = Option.map (g k) (if e.1 = k then some e.2 else alookup rest k)
    by_cases he : e.1 = k
    · rw [if_pos he, if_pos he, he]
      rfl
    · rw [if_neg he, if_neg he]
      exact ih

theorem akeys_map_value {α β γ : Type} (l : List (α × β)) (g : α → β → γ) :
    akeys (l.map (fun e => (e.1, g e.1 e.2))) = akeys l := by
  unfold akeys
  rw [List.map_map]
  rfl

theorem alookup_isSome_of_mem {α β : Type} [DecidableEq α] (l : List (α × β))
    (k : α) (h : k ∈ akeys l) : (alookup l k).isSome = true := by
  induction l with
  | nil => simp [akeys] at h
  | cons e rest ih =>
    rw [alookup_cons]
    by_cases he : e.1 = k
    · rw [if_pos he]
      rfl
    · rw [if_neg he]
      rw [akeys_cons] at h
      rcases List.mem_cons.mp h with h1 | h1
      · exact absurd h1.symm he
      · exact ih h1

theorem alookup_map_overwrite {α β : Type} [DecidableEq α] (l : List (α × β))
    (k k' : α) (v : β) (h : k' ≠ k) :
    alookup (l.map (fun e => if e.1 = k then (k, v) else e)) k' = alookup l k' := by
  induction l with
  | nil => rfl
  | cons e rest ih =>
    simp only [List.map_cons, alookup_cons]
    by_cases he : e.1 = k
    · rw [if_pos he]
      rw [if_neg (show ¬((k, v).1 = k') from fun hh => h hh.symm),
        if_neg (fun hh : e.1 = k' => h (he.symm.trans hh).symm)]
      exact ih
    · rw [if_neg he]
      by_cases h2 : e.1 = k'
      · rw [if_pos h2, if_pos h2]
      · rw [if_neg h2, if_neg h2]
        exact ih

theorem alookup_map_overwrite_self {α β : Type} [DecidableEq α] (l : List (α × β))
    (k : α) (v : β) (h : k ∈ akeys l) :
    alookup (l.map (fun e => if e.1 = k then (k, v) else e)) k = some v := by
  induction l with
  | nil => simp [akeys] at h
  | cons e rest ih =>
    simp only [List.map_cons, alookup_cons]
    by_cases he : e.1 = k
    · rw [if_pos he, if_pos (show (k, v).1 = k from rfl)]
    · rw [if_neg he, if_neg he]
      rw [akeys_cons] at h
      rcases List.mem_cons.mp h with h1 | h1
      · exact absurd h1.symm he
      · exact ih h1

theorem alookup_upsert_self {α β : Type} [DecidableEq α] (l : List (α × β))
    (k : α) (v : β) : alookup (upsert l k v) k = some v := by
  unfold upsert
  by_cases hk : k ∈ akeys l
  · rw [if_pos hk]
    exact alookup_map_overwrite_self l k v hk
  · rw [if_neg hk, alookup_append_right _ _ _ hk]
    simp [alookup]

theorem alookup_upsert_other {α β : Type} [DecidableEq α] (l : List (α × β))
    (k k' : α) (v : β) (h : k' ≠ k) : alookup (upsert l k v) k' = alookup l k' := by
  unfold upsert
  by_cases hk : k ∈ akeys l
  · rw [if_pos hk]
    exact alookup_map_overwrite l k k' v h
  · rw [if_neg hk]
    cases h2 : alookup l k' with
    | some v' => exact alookup_append_left _ _ _ _ h2
    | none =>
      rw [alookup_append_right _ _ _ ((alookup_eq_none_iff l k').mp h2),
        alookup_cons, if_neg (fun hh : k = k' => h hh.symm)]
      rfl

theorem sum_filter_of_zero {α M : Type} [AddCommMonoid M] (l : List α)
    (p : α → Bool) (f : α → M) (h : ∀ a ∈ l, p a = false → f a = 0) :
    ((l.filter p).map f).sum = (l.map f).sum := by
  induction l with
  | nil => rfl
  | cons a rest ih =>
    have ih2 := ih (fun b hb hpb => h b (List.mem_cons_of_mem _ hb) hpb)
    rw [List.map_cons, List.sum_cons]
    cases hp : p a with
    | true =>
      rw [List.filter_cons_of_pos hp, List.map_cons, List.sum_cons, ih2]
    | false =>
      rw [List.filter_cons_of_neg (by simp [hp]), ih2,
        h a (List.mem_cons_self a rest) hp, zero_add]

theorem bool_eq_true_or_iff (b : Bool) (P : Prop) :
    (b = true ∨ P) ↔ (b = false → P) := by
  cases b <;> simp

theorem bool_eq_false_or_iff (b : Bool) (P : Prop) :
    (b = false ∨ P) ↔ (b = true → P) := by
  cases b <;> simp

theorem factible_iff (cfg : Cfg) (st : LoadedState) (x : String → String → ℚ)
    (z : String → String → ℤ) :
    Factible cfg st x z ↔
      ((∀ r ∈ st.rutas, ∀ p ∈ st.patios, 0 ≤ x r p) ∧
       (cfg.relax = false → ∀ r ∈ st.rutas, ∀ p ∈ st.patios, (x r p).den = 1) ∧
       (∀ r ∈ st.rutas, sumxCompatPatios cfg st x r = (pvrOf st r : ℚ)) ∧
       (∀ p ∈ st.patios, sumxCompatRutas cfg st x p ≤ (capacidadEfectiva st p : ℚ)) ∧
       (∀ r ∈ st.rutas, ∀ p ∈ st.patios, matrizA cfg st r p = false → x r p = 0) ∧
       (∀ r ∈ st.rutas, ∀ p ∈ st.patios, matrizA cfg st r p = true → x r p ≤ (pvrOf st r : ℚ)) ∧
       (∀ k, cfg.kmax = some k →
         (∀ r ∈ st.rutas, ∀ p ∈ st.patios, z r p = 0 ∨ z r p = 1) ∧
         (∀ r ∈ st.rutas, sumzCompat cfg st z r ≤ (k : ℤ)) ∧
         (∀ r ∈ st.rutas, ∀ p ∈ st.patios, matrizA cfg st r p = true →
           x r p ≤ (pvrOf st r : ℚ) * (z r p : ℚ)))) := by
  unfold Factible factibleB
  cases hk : cfg.kmax with
  | none =>
    simp [List.all_eq_true, Bool.and_eq_true, Bool.or_eq_true, decide_eq_true_eq,
      bool_eq_true_or_iff, bool_eq_false_or_iff, Bool.not_eq_true', hk, and_assoc]
  | some k =>
    simp [List.all_eq_true, Bool.and_eq_true, Bool.or_eq_true, decide_eq_true_eq,
      bool_eq_true_or_iff, bool_eq_false_or_iff, Bool.not_eq_true', hk, and_assoc]

theorem foldl_max_mem {α : Type} (rest : List (ℚ × α)) (a : ℚ) :
    rest.foldl (fun acc f => max acc f.1) a = a ∨
      rest.foldl (fun acc f => max acc f.1) a ∈ rest.map Prod.fst := by
  induction rest generalizing a with
  | nil => exact Or.inl rfl
  | cons e r ih =>
    rw [List.foldl_cons]
    rcases ih (max a e.1) with h | h
    · rw [h]
      rcases max_choice a e.1 with h2 | h2
      · exact Or.inl h2
      · right
        rw [List.map_cons, h2]
        exact List.mem_cons_self _ _
    · right
      rw [List.map_cons]
      exact List.mem_cons_of_mem _ h

theorem foldl_max_bounds {α : Type} (rest : List (ℚ × α)) (a : ℚ) :
    a ≤ rest.foldl (fun acc f => max acc f.1) a ∧
      ∀ e ∈ rest, e.1 ≤ rest.foldl (fun acc f => max acc f.1) a := by
  induction rest generalizing a with
  | nil =>
    refine ⟨le_refl a, ?_⟩
    intro e he
    simp at he
  | cons e2 r ih =>
    rw [List.foldl_cons]
    obtain ⟨h1, h2⟩ := ih (max a e2.1)
    refine ⟨le_trans (le_max_left a e2.1) h1, ?_⟩
    intro e he
    rcases List.mem_cons.mp he with h3 | h3
    · rw [h3]
      exact le_trans (le_max_right a e2.1) h1
    · exact h2 e h3

theorem maxScale_mem (l : FeasList) (h : l ≠ []) : maxScale l ∈ l.map Prod.fst := by
  cases l with
  | nil => exact absurd rfl h
  | cons e rest =>
    show rest.foldl (fun acc f => max acc f.1) e.1 ∈ List.map Prod.fst (e :: rest)
    rcases foldl_max_mem rest e.1 with h1 | h1
    · rw [h1, List.map_cons]
      exact List.mem_cons_self _ _
    · rw [List.map_cons]
      exact List.mem_cons_of_mem _ h1

theorem le_maxScale (l : FeasList) : ∀ e ∈ l, e.1 ≤ maxScale l := by
  cases l with
  | nil =>
    intro e he
    simp at he
  | cons e2 rest =>
    intro e he
    show e.1 ≤ rest.foldl (fun acc f => max acc f.1) e2.1
    rcases List.mem_cons.mp he with h3 | h3
    · rw [h3]
      exact (foldl_max_bounds rest e2.1).1
    · exact (foldl_max_bounds rest e2.1).2 e h3

theorem alookup_isSome_of_mem_keys_feas (l : FeasList) (h : l ≠ []) :
    (alookup l (maxScale l)).isSome = true :=
  alookup_isSome_of_mem l (maxScale l) (by
    have := maxScale_mem l h
    simpa [akeys] using this)

theorem overflowEntries_ok_lookup (dist : Matriz) (patios : List String) (f : ℚ)
    (rutas : List String) (ocs ots : Fila)
    (h : overflowEntries dist patios f rutas = .ok (ocs, ots)) :
    ∀ r ∈ rutas, ∃ c cs, presentCosts dist patios r = c :: cs ∧
      alookup ocs r = some ((CostVal.scale f (cs.foldl CostVal.maxv c)).round2v) ∧
      alookup ots r =
        some ((CostVal.scale 3 (CostVal.scale f (cs.foldl CostVal.maxv c))).round2v) := by
  induction rutas generalizing ocs ots with
  | nil =>
    intro r hr
    simp at hr
  | cons r0 rs ih =>
    unfold overflowEntries at h
    cases hpc : presentCosts dist patios r0 with
    | nil =>
      rw [hpc] at h
      simp at h
    | cons c cs =>
      rw [hpc] at h
      cases hrec : overflowEntries dist patios f rs with
      | error e =>
        rw [hrec] at h
        simp at h
      | ok pair =>
        obtain ⟨ocs', ots'⟩ := pair
        rw [hrec] at h
        simp only [Except.ok.injEq, Prod.mk.injEq] at h
        obtain ⟨h1, h2⟩ := h
        intro r hr
        by_cases hr0 : r0 = r
        · subst hr0
          refine ⟨c, cs, hpc, ?_, ?_⟩
          · rw [← h1, alookup_cons, if_pos rfl]
          · rw [← h2, alookup_cons, if_pos rfl]
        · rcases List.mem_cons.mp hr with he | he
          · exact absurd he.symm hr0
          · obtain ⟨c2, cs2, hp2, ho2, ht2⟩ := ih ocs' ots' hrec r he
            refine ⟨c2, cs2, hp2, ?_, ?_⟩
            · rw [← h1, alookup_cons, if_neg hr0]
              exact ho2
            · rw [← h2, alookup_cons, if_neg hr0]
              exact ht2

theorem overflowEntries_error_first (dist : Matriz) (patios : List String) (f : ℚ)
    (rutas : List String) (r0 : String)
    (h : rutas.find? (fun r => (presentCosts dist patios r).isEmpty) = some r0) :
    overflowEntries dist patios f rutas = .error (.overflowSinCostos r0) := by
  induction rutas with
  | nil => simp [List.find?] at h
  | cons a rs ih =>
    unfold overflowEntries
    cases hpc : presentCosts dist patios a with
    | nil =>
      have ha : (presentCosts dist patios a).isEmpty = true := by
        rw [hpc]
        rfl
      simp only [List.find?, ha] at h
      have : a = r0 := by simpa using h
      rw [this]
    | cons c cs =>
      have ha : (presentCosts dist patios a).isEmpty = false := by
        rw [hpc]
        rfl
      simp only [List.find?, ha] at h
      rw [ih h]

theorem optElim_none {a b : Type} (x : b) (f : a → b) : optElim none x f = x := rfl

theorem optElim_some {a b : Type} (v : a) (x : b) (f : a → b) :
    optElim (some v) x f = f v := rfl

theorem exceptCases_ok {eps a b : Type} (v : a) (onErr : eps → b) (onOk : a → b) :
    exceptCases (.ok v) onErr onOk = onOk v := rfl

theorem exceptCases_error {eps a b : Type} (err : eps) (onErr : eps → b) (onOk : a → b) :
    exceptCases (.error err) onErr onOk = onErr err := rfl

theorem preCero_distancias (cfg : Cfg) (datos : Datos) :
    (preCero cfg datos).distancias = datos.distancias := rfl

theorem preCero_tiempos (cfg : Cfg) (datos : Datos) :
    (preCero cfg datos).tiempos = datos.tiempos := rfl

theorem preCero_capacidades (cfg : Cfg) (datos : Datos) :
    (preCero cfg datos).capacidades
      = scaledCaps cfg.capacity_override cfg.cap_multiplier datos.capacidades := rfl

theorem preCero_patios (cfg : Cfg) (datos : Datos) :
    (preCero cfg datos).patios = akeys datos.distancias := rfl

theorem preOverflow_none (cfg : Cfg) (datos : Datos)
    (h : cfg.overflow_penalty_km = none) :
    preOverflow cfg datos = .ok (preCero cfg datos) := by
  unfold preOverflow
  rw [h, optElim_none]

theorem preOverflow_some (cfg : Cfg) (datos : Datos) (f : ℚ) (pre : PreDatos)
    (hf : cfg.overflow_penalty_km = some f)
    (hno : overflowId ∉ akeys datos.distancias)
    (h : preOverflow cfg datos = .ok pre) :
    ∃ ocs ots,
      overflowEntries datos.distancias (akeys datos.distancias) f (akeys datos.pvr)
        = .ok (ocs, ots) ∧
      pre.distancias = datos.distancias ++ [(overflowId, ocs)] ∧
      pre.tiempos = upsert datos.tiempos overflowId ots ∧
      pre.capacidades = upsert
        (scaledCaps cfg.capacity_override cfg.cap_multiplier datos.capacidades)
        overflowId 1000000000 ∧
      pre.patios = akeys datos.distancias ++ [overflowId] := by
  unfold preOverflow addOverflowPatio at h
  rw [hf, optElim_some] at h
  simp only [preCero_distancias, preCero_tiempos, preCero_capacidades, preCero_patios] at h
  rw [if_neg hno] at h
  cases he : overflowEntries datos.distancias (akeys datos.distancias) f (akeys datos.pvr) with
  | error e =>
    rw [he, exceptCases_error] at h
    simp at h
  | ok pair =>
    rw [he, exceptCases_ok] at h
    simp only [Except.ok.injEq] at h
    refine ⟨pair.1, pair.2, rfl, ?_, ?_, ?_, ?_⟩
    · rw [← h]
      show upsert datos.distancias overflowId pair.1 = _
      unfold upsert
      rw [if_neg hno]
    · rw [← h]
    · rw [← h]
      norm_num
    · rw [← h]

theorem preOverflow_cases (cfg : Cfg) (datos : Datos) (pre : PreDatos)
    (h : preOverflow cfg datos = .ok pre) :
    (pre.distancias = datos.distancias ∧
     pre.capacidades = scaledCaps cfg.capacity_override cfg.cap_multiplier datos.capacidades ∧
     pre.patios = akeys datos.distancias)
    ∨ (overflowId ∉ akeys datos.distancias ∧
       pre.capacidades = upsert
         (scaledCaps cfg.capacity_override cfg.cap_multiplier datos.capacidades)
         overflowId 1000000000 ∧
       pre.patios = akeys datos.distancias ++ [overflowId] ∧
       ∃ ocs, pre.distancias = datos.distancias ++ [(overflowId, ocs)]) := by
  unfold preOverflow at h
  cases hf : cfg.overflow_penalty_km with
  | none =>
    rw [hf, optElim_none] at h
    simp only [Except.ok.injEq] at h
    left
    rw [← h]
    exact ⟨rfl, rfl, rfl⟩
  | some f =>
    rw [hf, optElim_some] at h
    unfold addOverflowPatio at h
    simp only [preCero_distancias, preCero_tiempos, preCero_capacidades, preCero_patios] at h
    by_cases hno : overflowId ∈ akeys datos.distancias
    · rw [if_pos hno] at h
      simp only [Except.ok.injEq] at h
      left
      rw [← h]
      exact ⟨rfl, rfl, rfl⟩
    · rw [if_neg hno] at h
      cases he : overflowEntries datos.distancias (akeys datos.distancias) f (akeys datos.pvr) with
      | error e =>
        rw [he, exceptCases_error] at h
        simp at h
      | ok pair =>
        rw [he, exceptCases_ok] at h
        simp only [Except.ok.injEq] at h
        right
        rw [← h]
        refine ⟨hno, by norm_num, rfl, pair.1, ?_⟩
        show upsert datos.distancias overflowId pair.1 = _
        unfold upsert
        rw [if_neg hno]

theorem exceptBind_ok {eps a b : Type} (v : a) (f : a → Except eps b) :
    exceptBind (.ok v) f = f v := rfl

theorem exceptBind_error {eps a b : Type} (err : eps) (f : a → Except eps b) :
    exceptBind (.error err) f = (.error err : Except eps b) := rfl

theorem cargarDatos_ok_struct (cfg : Cfg) (datos : Datos) (st : LoadedState)
    (h : cargarDatos cfg datos = .ok st) :
    ∃ pre, preOverflow cfg datos = .ok pre ∧
      st.distancias = pre.distancias ∧ st.tiempos = pre.tiempos ∧
      st.pvr = datos.pvr ∧ st.capacidades = pre.capacidades ∧
      st.patios = pre.patios ∧
      st.cap_total_base = capTotalBaseDe cfg datos ∧
      st.rutas = rutasCubiertas cfg pre (akeys datos.pvr) ∧
      rutasSinCobertura cfg pre (akeys datos.pvr) = [] ∧
      st.total_pvr = totalPvrSobre datos st.rutas ∧
      (cfg.overflow_penalty_km = none → st.total_pvr ≤ st.cap_total_base) := by
  unfold cargarDatos at h
  cases hpre : preOverflow cfg datos with
  | error e =>
    rw [hpre, exceptBind_error] at h
    simp at h
  | ok pre =>
    rw [hpre, exceptBind_ok] at h
    refine ⟨pre, rfl, ?_⟩
    unfold cargarDatosAux at h
    by_cases hcob : rutasSinCobertura cfg pre (akeys datos.pvr) = []
    · rw [if_pos hcob] at h
      by_cases hcap : cfg.overflow_penalty_km = none ∧
          capTotalBaseDe cfg datos < totalPvrSobre datos (rutasCubiertas cfg pre (akeys datos.pvr))
      · rw [if_pos hcap] at h
        simp at h
      · rw [if_neg hcap] at h
        simp only [Except.ok.injEq] at h
        rw [← h]
        refine ⟨rfl, rfl, rfl, rfl, rfl, rfl, rfl, hcob, rfl, ?_⟩
        intro hnone
        show totalPvrSobre datos (rutasCubiertas cfg pre (akeys datos.pvr)) ≤ capTotalBaseDe cfg datos
        by_contra hlt
        exact hcap ⟨hnone, by linarith [lt_of_not_le hlt]⟩
    · rw [if_neg hcob] at h
      simp at h

theorem cargarDatos_error_sinCobertura (cfg : Cfg) (datos : Datos) (pre : PreDatos)
    (hpre : preOverflow cfg datos = .ok pre)
    (hne : rutasSinCobertura cfg pre (akeys datos.pvr) ≠ []) :
    cargarDatos cfg datos
      = .error (.sinCobertura ((rutasSinCobertura cfg pre (akeys datos.pvr)).take 10)) := by
  unfold cargarDatos
  rw [hpre, exceptBind_ok]
  unfold cargarDatosAux
  rw [if_neg hne]

theorem capEscalada_override (ov : List (String × ℤ)) (m : ℚ) (k : String)
    (cap v : ℤ) (h : alookup ov k = some v) :
    capEscalada ov m k cap = max 0 v := by
  unfold capEscalada
  rw [h, optElim_some]

theorem capEscalada_sin_override (ov : List (String × ℤ)) (m : ℚ) (k : String)
    (cap : ℤ) (h : alookup ov k = none) :
    capEscalada ov m k cap = max 0 (roundHalfEven ((cap : ℚ) * m)) := by
  unfold capEscalada
  rw [h, optElim_none]

theorem alookup_scaledCaps (ov : List (String × ℤ)) (m : ℚ)
    (raw : List (String × ℤ)) (q : String) :
    alookup (scaledCaps ov m raw) q = (alookup raw q).map (capEscalada ov m q) :=
  alookup_map_value raw (capEscalada ov m) q

theorem akeys_scaledCaps (ov : List (String × ℤ)) (m : ℚ)
    (raw : List (String × ℤ)) : akeys (scaledCaps ov m raw) = akeys raw :=
  akeys_map_value raw (capEscalada ov m)

theorem scaledCaps_nonneg (ov : List (String × ℤ)) (m : ℚ)
    (raw : List (String × ℤ)) : ∀ e ∈ scaledCaps ov m raw, 0 ≤ e.2 := by
  intro e he
  unfold scaledCaps at he
  obtain ⟨a, _, rfl⟩ := List.mem_map.mp he
  exact le_max_left 0 _

theorem mem_upsert_val {α β : Type} [DecidableEq α] (l : List (α × β)) (k : α)
    (v : β) : ∀ e ∈ upsert l k v, e ∈ l ∨ e = (k, v) := by
  intro e he
  unfold upsert at he
  by_cases hk : k ∈ akeys l
  · rw [if_pos hk] at he
    obtain ⟨a, ha, hae⟩ := List.mem_map.mp he
    by_cases h2 : a.1 = k
    · rw [if_pos h2] at hae
      exact Or.inr hae.symm
    · rw [if_neg h2] at hae
      exact Or.inl (hae ▸ ha)
  · rw [if_neg hk] at he
    rcases List.mem_append.mp he with h2 | h2
    · exact Or.inl h2
    · rcases List.mem_cons.mp h2 with h3 | h3
      · exact Or.inr h3
      · simp at h3

theorem alookup_mem {α β : Type} [DecidableEq α] (l : List (α × β)) (k : α)
    (v : β) (h : alookup l k = some v) : (k, v) ∈ l := by
  induction l with
  | nil => simp [alookup] at h
  | cons e rest ih =>
    rw [alookup_cons] at h
    by_cases he : e.1 = k
    · rw [if_pos he] at h
      have h2 : e.2 = v := by simpa using h
      have h3 : (k, v) = e := by
        rw [← he, ← h2]
      rw [h3]
      exact List.mem_cons_self _ _
    · rw [if_neg he] at h
      exact List.mem_cons_of_mem _ (ih h)

theorem caps_nonneg (cfg : Cfg) (datos : Datos) (st : LoadedState)
    (h : cargarDatos cfg datos = .ok st) : ∀ e ∈ st.capacidades, 0 ≤ e.2 := by
  obtain ⟨pre, hpre, _, _, _, hcaps, _⟩ := cargarDatos_ok_struct cfg datos st h
  intro e he
  rw [hcaps] at he
  rcases preOverflow_cases cfg datos pre hpre with ⟨_, hc, _⟩ | ⟨_, hc, _, _⟩ <;> rw [hc] at he
  · exact scaledCaps_nonneg _ _ _ e he
  · rcases mem_upsert_val _ _ _ e he with h2 | h2
    · exact scaledCaps_nonneg _ _ _ e h2
    · rw [h2]
      norm_num

theorem computeSensitivity_some (oracle : Oracle) (datos : Datos) (scale : ℚ)
    (overflow : Option ℚ) (solver : String) (st : LoadedState)
    (x : String → String → ℚ)
    (h : (computeSensitivity oracle datos scale overflow solver).2 = some (st, x)) :
    cargarDatos (cfgSens scale overflow solver) datos = .ok st ∧
    oracle (cfgSens scale overflow solver) st = some x := by
  unfold computeSensitivity at h
  cases hld : cargarDatos (cfgSens scale overflow solver) datos with
  | error e =>
    rw [hld, exceptCases_error] at h
    simp at h
  | ok st2 =>
    rw [hld, exceptCases_ok] at h
    cases hor : oracle (cfgSens scale overflow solver) st2 with
    | none =>
      rw [hor, optElim_none] at h
      simp at h
    | some x2 =>
      rw [hor, optElim_some] at h
      simp only [Option.some.injEq, Prod.mk.injEq] at h
      obtain ⟨h1, h2⟩ := h
      rw [← h1, ← h2]
      exact ⟨rfl, hor⟩

theorem sweepFold_feas_inv (oracle : Oracle) (datos : Datos) (overflow : Option ℚ)
    (solver : String) (scales : List ℚ) :
    ∀ e ∈ (sweepFold oracle datos overflow solver scales).2,
      cargarDatos (cfgSens e.1 overflow solver) datos = .ok e.2.1 ∧
      oracle (cfgSens e.1 overflow solver) e.2.1 = some e.2.2 := by
  unfold sweepFold
  suffices h : ∀ acc : List SensRecord × FeasList,
      (∀ e ∈ acc.2, cargarDatos (cfgSens e.1 overflow solver) datos = .ok e.2.1 ∧
        oracle (cfgSens e.1 overflow solver) e.2.1 = some e.2.2) →
      ∀ e ∈ (scales.foldl (sweepStep oracle datos overflow solver) acc).2,
        cargarDatos (cfgSens e.1 overflow solver) datos = .ok e.2.1 ∧
        oracle (cfgSens e.1 overflow solver) e.2.1 = some e.2.2 by
    exact h ([], []) (by intro e he; simp at he)
  induction scales with
  | nil =>
    intro acc hacc e he
    exact hacc e he
  | cons sc ss ih =>
    intro acc hacc e he
    rw [List.foldl_cons] at he
    refine ih (sweepStep oracle datos overflow solver acc sc) ?_ e he
    intro e2 he2
    unfold sweepStep at he2
    cases hcs : (computeSensitivity oracle datos sc overflow solver).2 with
    | none =>
      rw [hcs, optElim_none] at he2
      exact hacc e2 he2
    | some st_x =>
      rw [hcs, optElim_some] at he2
      rcases mem_upsert_val _ _ _ e2 he2 with h2 | h2
      · exact hacc e2 h2
      · obtain ⟨st, x⟩ := st_x
        obtain ⟨hld, hor⟩ := computeSensitivity_some oracle datos sc overflow solver st x hcs
        rw [h2]
        exact ⟨hld, hor⟩

theorem sweepFold_rows (oracle : Oracle) (datos : Datos) (overflow : Option ℚ)
    (solver : String) (scales : List ℚ) :
    (sweepFold oracle datos overflow solver scales).1
      = scales.map (fun s => (computeSensitivity oracle datos s overflow solver).1) := by
  unfold sweepFold
  suffices h : ∀ acc : List SensRecord × FeasList,
      (scales.foldl (sweepStep oracle datos overflow solver) acc).1
        = acc.1 ++ scales.map (fun s => (computeSensitivity oracle datos s overflow solver).1) by
    simpa using h ([], [])
  induction scales with
  | nil =>
    intro acc
    simp
  | cons sc ss ih =>
    intro acc
    rw [List.foldl_cons, ih, List.map_cons]
    unfold sweepStep
    simp

theorem stageB_cons (oracle : Oracle) (datos : Datos) (overflow : Option ℚ)
    (solver : String) (f : ℚ × LoadedState × (String → String → ℚ))
    (fs : FeasList) :
    stageB oracle datos overflow solver (f :: fs)
      = optElim (alookup (f :: fs) (maxScale (f :: fs))) none
          (fun st_x =>
            some (st_x.1.capacidades.map (shadowRowFor oracle datos (maxScale (f :: fs))
              (objectiveValue (cfgSens (maxScale (f :: fs)) overflow solver)
                st_x.1 st_x.2)))) := rfl

theorem stageB_none_iff (oracle : Oracle) (datos : Datos) (overflow : Option ℚ)
    (solver : String) (feas : FeasList) :
    stageB oracle datos overflow solver feas = none ↔ feas = [] := by
  cases feas with
  | nil => simp [stageB]
  | cons f fs =>
    constructor
    · intro h
      exfalso
      have hs := alookup_isSome_of_mem_keys_feas (f :: fs) (by simp)
      cases halt : alookup (f :: fs) (maxScale (f :: fs)) with
      | none =>
        rw [halt] at hs
        simp at hs
      | some st_x =>
        rw [stageB_cons, halt, optElim_some] at h
        simp at h
    · intro h
      simp at h

/-- C9 (counterexample): on an input where the single requested scale factor
0 fails (scaled capacities drop to 0, demand 8 exceeds capacity 0), the
sensitivity command still returns exit status 0: every sweep record carries
a null objective, no Stage B table is produced, and the returned status is
0 where the claim requires a non-zero status. -/
theorem C9_contraejemplo :
    ((cmdSensitivity oracleToy datosToy [0] none "cbc").1.all
      (fun fila => decide (fila.objective_km = none))) = true ∧
    ((cmdSensitivity oracleToy datosToy [0] none "cbc").1.length = 1) ∧
    (cmdSensitivity oracleToy datosToy [0] none "cbc").2.1 = none ∧
    (cmdSensitivity oracleToy datosToy [0] none "cbc").2.2 = 0 := by
  with_unfolding_all decide

/-- C9 (amended): cmd_sensitivity returns exit status 0 unconditionally, for
every oracle, input and scale list — also when every factor fails; failures
are recorded only in the sweep table, and the Stage B table is omitted
exactly when no scale factor was feasible. -/
theorem C9_salida_siempre_cero (oracle : Oracle) (datos : Datos)
    (scales : List ℚ) (overflow : Option ℚ) (solver : String) :
    (cmdSensitivity oracle datos scales overflow solver).2.2 = 0 ∧
    ((cmdSensitivity oracle datos scales overflow solver).2.1 = none ↔
      (sweepFold oracle datos overflow solver
        (if scales = [] then [1] else scales)).2 = []) := by
  constructor
  · rfl
  · show stageB oracle datos overflow solver
        (sweepFold oracle datos overflow solver
          (if scales = [] then [1] else scales)).2 = none ↔ _
    exact stageB_none_iff _ _ _ _ _

/-- C8 (counterexample): the cbc backend is created without any
optimality-gap setting, and the glpk backend without a time limit and
without a gap, contradicting the claim that every supported backend is
configured with both the wall-clock time limit and the gap tolerance
(Config.SOLVER_GAP exists but is never passed to a solver). -/
theorem C8_contraejemplo :
    (createSolver availTodos "cbc").map SolverCfg.gapRel = .ok none ∧
    (createSolver availTodos "cbc").map SolverCfg.timeLimit
      = .ok (some Config.SOLVER_TIME_LIMIT) ∧
    (createSolver availTodos "glpk").map SolverCfg.timeLimit = .ok none ∧
    (createSolver availTodos "glpk").map SolverCfg.gapRel = .ok none ∧
    Config.SOLVER_GAP = 1/50 := by
  with_unfolding_all decide

/-- C8 (amended): of the three supported backends only cbc is configured
with the wall-clock time limit, none is configured with the optimality-gap
tolerance; an unavailable supported backend makes resolver fail with the
RuntimeError-like error before any solve (the result does not depend on the
solve call), and an unsupported name raises the ValueError-like error. -/
theorem C8_config_solver (avail : String → Bool) (solve solve2 : SolverCfg → Bool) :
    (avail "cbc" = true → createSolver avail "cbc"
      = .ok ⟨"cbc", some Config.SOLVER_TIME_LIMIT, none, false⟩) ∧
    (avail "glpk" = true → createSolver avail "glpk"
      = .ok ⟨"glpk", none, none, false⟩) ∧
    (avail "clp" = true → createSolver avail "clp"
      = .ok ⟨"clp", none, none, false⟩) ∧
    (∀ n, (n = "cbc" ∨ n = "glpk" ∨ n = "clp") → avail n = false →
      resolverConSolver avail solve n = .error (.noDisponible n) ∧
      resolverConSolver avail solve n = resolverConSolver avail solve2 n) ∧
    (∀ n, n ≠ "cbc" → n ≠ "glpk" → n ≠ "clp" →
      resolverConSolver avail solve n = .error (.noSoportado n)) := by
  refine ⟨?_, ?_, ?_, ?_, ?_⟩
  · intro h
    unfold createSolver
    rw [if_pos rfl, exceptCases_ok]
    simp [h]
  · intro h
    unfold createSolver
    rw [if_neg (by decide), if_pos rfl, exceptCases_ok]
    simp [h]
  · intro h
    unfold createSolver
    rw [if_neg (by decide), if_neg (by decide), if_pos rfl, exceptCases_ok]
    simp [h]
  · intro n hn hav
    rcases hn with rfl | rfl | rfl <;>
      refine ⟨?_, ?_⟩ <;>
        unfold resolverConSolver createSolver <;>
          simp [hav, exceptCases_ok, exceptCases_error]
  · intro n h1 h2 h3
    unfold resolverConSolver createSolver
    rw [if_neg h1, if_neg h2, if_neg h3, exceptCases_error, exceptCases_error]

/-- C4 (counterexample): route R1 has a finite cost 10 at P1 and a
non-finite cost at P2, so the maximum finite real-depot cost is 10 and the
claim prices the overflow entry at round(2 * 10) = 20; the code instead
takes the maximum over all present entries, non-finite included, and stores
a non-finite overflow cost, with no error raised. -/
theorem C4_contraejemplo :
    mlookup datosInf.distancias "P1" "R1" = some (.fin 10) ∧
    mlookup datosInf.distancias "P2" "R1" = some .infty ∧
    cfgInf.overflow_penalty_km = some 2 ∧
    (preOverflow cfgInf datosInf).map
      (fun pre => mlookup pre.distancias overflowId "R1") = .ok (some .infty) ∧
    some CostVal.infty ≠ some (CostVal.fin (round2 (2 * 10))) := by
  with_unfolding_all decide

/-- C4 (amended): when the overflow depot is priced, each route's overflow
distance entry is round(f * m_r, 2) where m_r is the maximum over the cost
entries present at any depot (finiteness is not checked, so a non-finite
entry dominates the maximum), and the fatal per-route error is raised only
for the first route that has no cost entry at any depot at all. -/
theorem C4_costo_overflow (dist : Matriz) (patios : List String) (f : ℚ)
    (rutas : List String) :
    (∀ ocs ots, overflowEntries dist patios f rutas = .ok (ocs, ots) →
      ∀ r ∈ rutas, ∃ c cs, presentCosts dist patios r = c :: cs ∧
        alookup ocs r = some ((CostVal.scale f (cs.foldl CostVal.maxv c)).round2v)) ∧
    (∀ r0, rutas.find? (fun r => (presentCosts dist patios r).isEmpty) = some r0 →
      overflowEntries dist patios f rutas = .error (.overflowSinCostos r0)) := by
  constructor
  · intro ocs ots h r hr
    obtain ⟨c, cs, h1, h2, _⟩ :=
      overflowEntries_ok_lookup dist patios f rutas ocs ots h r hr
    exact ⟨c, cs, h1, h2⟩
  · intro r0 h
    exact overflowEntries_error_first dist patios f rutas r0 h

/-- C10: a depot that appears in the cost matrices but has no entry in the
capacity table gets the fixed default capacity 15 in its capacity
constraint, for every scale factor and every override list; it never enters
the scaled capacity table, and the demand-versus-capacity feasibility check
of cargar_datos compares total demand only against the scaled capacity
table total. -/
theorem C10_capacidad_default (cfg : Cfg) (datos : Datos) (st : LoadedState)
    (p : String)
    (hacc : cargarDatos cfg datos = .ok st)
    (hp : p ∈ akeys datos.distancias)
    (hnc : p ∉ akeys datos.capacidades) :
    capacidadEfectiva st p = Config.CAPACIDAD_PATIO_DEFAULT ∧
    p ∉ akeys (scaledCaps cfg.capacity_override cfg.cap_multiplier datos.capacidades) ∧
    st.cap_total_base = capTotalBaseDe cfg datos ∧
    (cfg.overflow_penalty_km = none → st.total_pvr ≤ st.cap_total_base) := by
  obtain ⟨pre, hpre, _, _, _, hcaps, _, hbase, _, _, _, hcheck⟩ :=
    cargarDatos_ok_struct cfg datos st hacc
  have hnone : alookup (scaledCaps cfg.capacity_override cfg.cap_multiplier datos.capacidades) p = none := by
    rw [alookup_scaledCaps]
    rw [(alookup_eq_none_iff datos.capacidades p).mpr hnc]
    rfl
  refine ⟨?_, ?_, hbase, hcheck⟩
  · unfold capacidadEfectiva
    rw [hcaps]
    rcases preOverflow_cases cfg datos pre hpre with ⟨_, hc, _⟩ | ⟨hno, hc, _, _⟩ <;> rw [hc]
    · rw [hnone]
      rfl
    · have hpo : p ≠ overflowId := by
        intro he
        exact hno (he ▸ hp)
      rw [alookup_upsert_other _ _ _ _ hpo, hnone]
      rfl
  · intro hmem
    rw [akeys_scaledCaps] at hmem
    exact hnc hmem

set_option maxRecDepth 4000 in
/-- C10 (witness): in datosSinCap the depot P2 appears in the cost matrices
but not in the capacity table; with scale factor 3 and even an explicit
override for P2, its effective capacity stays at the default 15. -/
theorem C10_capacidad_default_witness :
    (("P2" : String) ∈ akeys datosSinCap.distancias ∧
      ("P2" : String) ∉ akeys datosSinCap.capacidades ∧
      cfgEscala3.cap_multiplier = 3 ∧
      alookup cfgEscala3.capacity_override "P2" = some 99) ∧
    (capacidadEfectiva stEscala3 "P2" = Config.CAPACIDAD_PATIO_DEFAULT ∧
      ("P2" : String) ∉ akeys (scaledCaps cfgEscala3.capacity_override
        cfgEscala3.cap_multiplier datosSinCap.capacidades) ∧
      stEscala3.cap_total_base = capTotalBaseDe cfgEscala3 datosSinCap ∧
      (cfgEscala3.overflow_penalty_km = none →
        stEscala3.total_pvr ≤ stEscala3.cap_total_base)) :=
  ⟨by with_unfolding_all decide,
   C10_capacidad_default cfgEscala3 datosSinCap stEscala3 "P2"
     (cargarDatos_eq_ok cfgEscala3 datosSinCap (by with_unfolding_all decide))
     (by with_unfolding_all decide) (by with_unfolding_all decide)⟩

/-- C3: whenever, after the optional overflow injection, some route is
compatible with no depot at all, cargar_datos fails with the coverage
ValueError carrying the first 10 offending route identifiers, and the full
load-build-solve pipeline fails with that same error before any solve,
whatever the solver oracle would answer. -/
theorem C3_cobertura_fatal (oracle : Oracle) (cfg : Cfg) (datos : Datos)
    (pre : PreDatos) (r0 : String)
    (hpre : preOverflow cfg datos = .ok pre)
    (hr : r0 ∈ akeys datos.pvr)
    (hnc : ∀ p ∈ pre.patios, compatible cfg pre.distancias pre.tiempos r0 p = false) :
    rutasSinCobertura cfg pre (akeys datos.pvr) ≠ [] ∧
    r0 ∈ rutasSinCobertura cfg pre (akeys datos.pvr) ∧
    cargarDatos cfg datos
      = .error (.sinCobertura ((rutasSinCobertura cfg pre (akeys datos.pvr)).take 10)) ∧
    solveMain oracle cfg datos
      = .error (.carga (.sinCobertura
          ((rutasSinCobertura cfg pre (akeys datos.pvr)).take 10))) := by
  have hmem : r0 ∈ rutasSinCobertura cfg pre (akeys datos.pvr) := by
    unfold rutasSinCobertura
    rw [List.mem_filter]
    refine ⟨hr, ?_⟩
    rw [List.all_eq_true]
    intro p hp
    rw [hnc p hp]
    rfl
  have hne : rutasSinCobertura cfg pre (akeys datos.pvr) ≠ [] :=
    List.ne_nil_of_mem hmem
  have herr := cargarDatos_error_sinCobertura cfg datos pre hpre hne
  refine ⟨hne, hmem, herr, ?_⟩
  unfold solveMain
  rw [herr, exceptCases_error]

/-- C3 (witness): in the coverage-test instance route R3 has no cost entry
at any depot, so cargar_datos raises the coverage error naming R3 and the
pipeline never reaches model construction or the solver. -/
theorem C3_cobertura_fatal_witness :
    (preOverflow cfgToy datosSinCob = .ok (preCero cfgToy datosSinCob) ∧
      ("R3" : String) ∈ akeys datosSinCob.pvr ∧
      (∀ p ∈ (preCero cfgToy datosSinCob).patios,
        compatible cfgToy (preCero cfgToy datosSinCob).distancias
          (preCero cfgToy datosSinCob).tiempos "R3" p = false)) ∧
    (rutasSinCobertura cfgToy (preCero cfgToy datosSinCob) (akeys datosSinCob.pvr) ≠ [] ∧
      ("R3" : String) ∈ rutasSinCobertura cfgToy (preCero cfgToy datosSinCob)
        (akeys datosSinCob.pvr) ∧
      cargarDatos cfgToy datosSinCob
        = .error (.sinCobertura ((rutasSinCobertura cfgToy (preCero cfgToy datosSinCob)
            (akeys datosSinCob.pvr)).take 10)) ∧
      solveMain oracleToy cfgToy datosSinCob
        = .error (.carga (.sinCobertura ((rutasSinCobertura cfgToy
            (preCero cfgToy datosSinCob) (akeys datosSinCob.pvr)).take 10)))) :=
  ⟨by with_unfolding_all decide,
   C3_cobertura_fatal oracleToy cfgToy datosSinCob (preCero cfgToy datosSinCob) "R3"
     (by with_unfolding_all decide) (by with_unfolding_all decide)
     (by with_unfolding_all decide)⟩

/-- C1 (counterexample): in the test_compat instance with K = 1, the
assignment xKmax with indicators zKmax is feasible for every constraint the
model emits (the (4a) bound sums only compatible depots), yet the sum of
z[R2, p] over all depots is 2 > K = 1, because z on the incompatible pair
(R2, P1) is an unconstrained binary variable; the claim's all-depot reading
of the z bound is therefore false for this feasible solution. -/
theorem C1_contraejemplo :
    cargarDatos cfgKmax datosKmax = .ok stKmax ∧
    Factible cfgKmax stKmax xKmax zKmax ∧
    ("R2" : String) ∈ stKmax.rutas ∧
    cfgKmax.kmax = some 1 ∧
    ¬((stKmax.patios.map (fun p => zKmax "R2" p)).sum ≤ (1 : ℤ)) := by
  with_unfolding_all decide

/-- C1 (amended): for every accepted input and every feasible solution of
the built model: each route's assignment summed over all depots equals its
demand; each depot's load summed over all routes is at most the capacity
used by its constraint (the scaled capacity for depots of the capacity
table); x[r, p] = 0 on every incompatible pair; and when K is configured,
the sum of z[r, p] over the compatible depots of r is at most K and
x[r, p] <= demand[r] * z[r, p] on every compatible pair. -/
theorem C1_invariantes (cfg : Cfg) (datos : Datos) (st : LoadedState)
    (x : String → String → ℚ) (z : String → String → ℤ)
    (_hacc : cargarDatos cfg datos = .ok st)
    (hf : Factible cfg st x z) :
    (∀ r ∈ st.rutas, (st.patios.map (fun p => x r p)).sum = (pvrOf st r : ℚ)) ∧
    (∀ p ∈ st.patios, (st.rutas.map (fun r => x r p)).sum ≤ (capacidadEfectiva st p : ℚ)) ∧
    (∀ r ∈ st.rutas, ∀ p ∈ st.patios, matrizA cfg st r p = false → x r p = 0) ∧
    (∀ k, cfg.kmax = some k →
      (∀ r ∈ st.rutas, sumzCompat cfg st z r ≤ (k : ℤ)) ∧
      (∀ r ∈ st.rutas, ∀ p ∈ st.patios, matrizA cfg st r p = true →
        x r p ≤ (pvrOf st r : ℚ) * (z r p : ℚ))) := by
  rw [factible_iff] at hf
  obtain ⟨_, _, hdem, hcap, hpin, _, hk⟩ := hf
  refine ⟨?_, ?_, hpin, ?_⟩
  · intro r hr
    rw [← sum_filter_of_zero st.patios (fun p => matrizA cfg st r p)
      (fun p => x r p) (fun p hp hfa => hpin r hr p hp hfa)]
    exact hdem r hr
  · intro p hp
    rw [← sum_filter_of_zero st.rutas (fun r => matrizA cfg st r p)
      (fun r => x r p) (fun r hr hfa => hpin r hr p hp hfa)]
    exact hcap p hp
  · intro k hkk
    obtain ⟨_, hsum, hbind⟩ := hk k hkk
    exact ⟨hsum, hbind⟩

/-- C1 (witness): the amended invariants instantiated on the K = 1 instance
and the feasible solution (xKmax, zKmax). -/
theorem C1_invariantes_witness :
    (cargarDatos cfgKmax datosKmax = .ok stKmax ∧ Factible cfgKmax stKmax xKmax zKmax) ∧
    ((∀ r ∈ stKmax.rutas,
        (stKmax.patios.map (fun p => xKmax r p)).sum = (pvrOf stKmax r : ℚ)) ∧
     (∀ p ∈ stKmax.patios,
        (stKmax.rutas.map (fun r => xKmax r p)).sum ≤ (capacidadEfectiva stKmax p : ℚ)) ∧
     (∀ r ∈ stKmax.rutas, ∀ p ∈ stKmax.patios,
        matrizA cfgKmax stKmax r p = false → xKmax r p = 0) ∧
     (∀ k, cfgKmax.kmax = some k →
        (∀ r ∈ stKmax.rutas, sumzCompat cfgKmax stKmax zKmax r ≤ (k : ℤ)) ∧
        (∀ r ∈ stKmax.rutas, ∀ p ∈ stKmax.patios,
           matrizA cfgKmax stKmax r p = true →
           xKmax r p ≤ (pvrOf stKmax r : ℚ) * (zKmax r p : ℚ)))) :=
  ⟨⟨by with_unfolding_all decide, by with_unfolding_all decide⟩,
   C1_invariantes cfgKmax datosKmax stKmax xKmax zKmax
     (by with_unfolding_all decide) (by with_unfolding_all decide)⟩

/-- C2: on the toy instance (R1 demand 5, R2 demand 3, P1 capacity 4, P2
capacity 6, distance costs 10/12/15/8), the aggregate integer model at
scale 1 with no overflow, no K and no threshold accepts the assignment
R1 -> P1: 4, R1 -> P2: 1, R2 -> P2: 3 with objective 79, and every feasible
solution of the model has objective at least 79. -/
theorem C2_optimo_79 :
    cargarDatos cfgToy datosToy = .ok stToy ∧
    (Factible cfgToy stToy xToy zCero ∧ objectiveValue cfgToy stToy xToy = 79 ∧
      xToy "R1" "P1" = 4 ∧ xToy "R1" "P2" = 1 ∧ xToy "R2" "P2" = 3) ∧
    (∀ x z, Factible cfgToy stToy x z → 79 ≤ objectiveValue cfgToy stToy x) := by
  refine ⟨by with_unfolding_all decide, by with_unfolding_all decide, ?_⟩
  intro x z hf
  rw [factible_iff] at hf
  obtain ⟨hnn, _, hdem, hcap, _, _, _⟩ := hf
  have hr1 : ("R1" : String) ∈ stToy.rutas := by with_unfolding_all decide
  have hr2 : ("R2" : String) ∈ stToy.rutas := by with_unfolding_all decide
  have hp1 : ("P1" : String) ∈ stToy.patios := by with_unfolding_all decide
  have hp2 : ("P2" : String) ∈ stToy.patios := by with_unfolding_all decide
  have hd1 := hdem "R1" hr1
  have hd2 := hdem "R2" hr2
  have hc1 := hcap "P1" hp1
  have e1 : sumxCompatPatios cfgToy stToy x "R1"
      = x "R1" "P1" + (x "R1" "P2" + 0) := by
    with_unfolding_all rfl
  have e2 : sumxCompatPatios cfgToy stToy x "R2"
      = x "R2" "P1" + (x "R2" "P2" + 0) := by
    with_unfolding_all rfl
  have e3 : sumxCompatRutas cfgToy stToy x "P1"
      = x "R1" "P1" + (x "R2" "P1" + 0) := by
    with_unfolding_all rfl
  have ep1 : (pvrOf stToy "R1" : ℚ) = 5 := by with_unfolding_all decide
  have ep2 : (pvrOf stToy "R2" : ℚ) = 3 := by with_unfolding_all decide
  have ec1 : (capacidadEfectiva stToy "P1" : ℚ) = 4 := by with_unfolding_all decide
  have eo : objectiveValue cfgToy stToy x
      = (10 * x "R1" "P1" + (15 * x "R1" "P2" + 0))
        + ((12 * x "R2" "P1" + (8 * x "R2" "P2" + 0)) + 0) := by
    with_unfolding_all rfl
  rw [e1, ep1] at hd1
  rw [e2, ep2] at hd2
  rw [e3, ec1] at hc1
  rw [eo]
  have hb := hnn "R1" hr1 "P2" hp2
  have hc := hnn "R2" hr2 "P1" hp1
  have hd := hnn "R2" hr2 "P2" hp2
  linarith

/-- C7: the sweep of cmd_sensitivity produces exactly one record per
requested scale factor (with the default list [1.0] when none is given),
each record carries its own factor, and a factor whose model construction
raises the caught ValueError, or whose solve ends without an optimal
status, yields the null-objective failure record for that factor alone —
the records of all other factors are produced unchanged by the same map. -/
theorem C7_fallos_aislados (oracle : Oracle) (datos : Datos)
    (overflow : Option ℚ) (solver : String) (scales : List ℚ) :
    (cmdSensitivity oracle datos scales overflow solver).1
      = (if scales = [] then [1] else scales).map
          (fun s => (computeSensitivity oracle datos s overflow solver).1) ∧
    ∀ s : ℚ,
      ((computeSensitivity oracle datos s overflow solver).1.scale = s) ∧
      (∀ e, cargarDatos (cfgSens s overflow solver) datos = .error e →
        (computeSensitivity oracle datos s overflow solver).1
          = recordFallo s (.errorCarga e)) ∧
      (∀ st, cargarDatos (cfgSens s overflow solver) datos = .ok st →
        oracle (cfgSens s overflow solver) st = none →
        (computeSensitivity oracle datos s overflow solver).1
          = recordFallo s .sinOptimo) := by
  constructor
  · show (sweepFold oracle datos overflow solver
      (if scales = [] then [1] else scales)).1 = _
    exact sweepFold_rows oracle datos overflow solver _
  · intro s
    refine ⟨?_, ?_, ?_⟩
    · unfold computeSensitivity
      cases hld : cargarDatos (cfgSens s overflow solver) datos with
      | error e =>
        rw [exceptCases_error]
        rfl
      | ok st =>
        rw [exceptCases_ok]
        cases hor : oracle (cfgSens s overflow solver) st with
        | none =>
          rw [optElim_none]
          rfl
        | some x =>
          rw [optElim_some]
          rfl
    · intro e he
      unfold computeSensitivity
      rw [he, exceptCases_error]
    · intro st hst hor
      unfold computeSensitivity
      rw [hst, exceptCases_ok, hor, optElim_none]

theorem costosActivos_distancia (cfg : Cfg) (dist tiem : Matriz)
    (h : cfg.objetivo = .distancia) : costosActivos cfg dist tiem = dist := by
  unfold costosActivos
  rw [h]

theorem costosActivos_tiempo (cfg : Cfg) (dist tiem : Matriz)
    (h : cfg.objetivo = .tiempo) : costosActivos cfg dist tiem = tiem := by
  unfold costosActivos
  rw [h]

theorem pasaUmbral_sin_umbral (cfg : Cfg) (dist : Matriz) (r p : String)
    (h : cfg.max_distance_km = none) : pasaUmbral cfg dist r p = true := by
  unfold pasaUmbral
  rw [h]

theorem pasaUmbral_tiempo (cfg : Cfg) (dist : Matriz) (r p : String)
    (h : cfg.objetivo = .tiempo) : pasaUmbral cfg dist r p = true := by
  unfold pasaUmbral
  rw [h]
  cases cfg.max_distance_km <;> rfl

theorem pasaUmbral_distancia_le (cfg : Cfg) (dist : Matriz) (r p : String)
    (u d : ℚ) (hobj : cfg.objetivo = .distancia)
    (hu : cfg.max_distance_km = some u)
    (hd : mlookup dist p r = some (.fin d)) (hle : d ≤ u) :
    pasaUmbral cfg dist r p = true := by
  unfold pasaUmbral
  rw [hu, hobj, hd]
  exact decide_eq_true hle

theorem compatible_true (cfg : Cfg) (dist tiem : Matriz) (r p : String) (q : ℚ)
    (hlook : mlookup (costosActivos cfg dist tiem) p r = some (.fin q))
    (hpas : pasaUmbral cfg dist r p = true) :
    compatible cfg dist tiem r p = true := by
  unfold compatible
  rw [hlook, hpas]
  rfl

set_option maxRecDepth 10000 in
/-- C5 (counterexample): with overflow requested (penalty 1) and a distance
threshold of 12, the accepted instance datosUmbral prices the overflow
entry of R1 at 15 (its maximum real cost), and the threshold filter then
marks the pair (R1, overflow) incompatible: A[R1, overflow] = 0, against
the claim that the overflow depot is always compatible. -/
theorem C5_contraejemplo :
    cfgUmbral.overflow_penalty_km = some 1 ∧
    cfgUmbral.max_distance_km = some 12 ∧
    esOk (cargarDatos cfgUmbral datosUmbral) = true ∧
    ("R1" : String) ∈ stUmbral.rutas ∧
    overflowId ∈ stUmbral.patios ∧
    alookup stUmbral.capacidades overflowId = some 1000000000 ∧
    mlookup stUmbral.distancias overflowId "R1" = some (.fin 15) ∧
    matrizA cfgUmbral stUmbral "R1" overflowId = false :=
  ⟨by with_unfolding_all decide, by with_unfolding_all decide,
   by with_unfolding_all decide, by with_unfolding_all decide,
   by with_unfolding_all decide, by with_unfolding_all rfl,
   by with_unfolding_all decide, by with_unfolding_all decide⟩

/-- C5 (amended): when overflow is requested with factor f, the input cost
matrices contain no depot already named "overflow", and the input is
accepted, then the overflow depot is appended with the sentinel capacity
1e9, and a route r is compatible with it provided the maximum of its
present real-depot cost entries is finite (value m) and the overflow cost
round(f * m, 2) passes the distance threshold whenever one applies (no
threshold set, or time objective, or round(f * m, 2) within the
threshold). -/
theorem C5_overflow_compatible (cfg : Cfg) (datos : Datos) (st : LoadedState)
    (f : ℚ) (r : String) (c : CostVal) (cs : List CostVal) (m : ℚ)
    (hof : cfg.overflow_penalty_km = some f)
    (hno : overflowId ∉ akeys datos.distancias)
    (hacc : cargarDatos cfg datos = .ok st)
    (hr : r ∈ st.rutas)
    (hpc : presentCosts datos.distancias (akeys datos.distancias) r = c :: cs)
    (hm : cs.foldl CostVal.maxv c = .fin m)
    (hthr : ∀ u, cfg.max_distance_km = some u → cfg.objetivo = .distancia →
      round2 (f * m) ≤ u) :
    overflowId ∈ st.patios ∧
    alookup st.capacidades overflowId = some 1000000000 ∧
    mlookup st.distancias overflowId r = some (.fin (round2 (f * m))) ∧
    matrizA cfg st r overflowId = true := by
  obtain ⟨pre, hpre, hdist, htiem, _, hcaps, hpat, _, hrt, _, _, _⟩ :=
    cargarDatos_ok_struct cfg datos st hacc
  obtain ⟨ocs, ots, hoe, hpd, hpt, hpc2, hpp⟩ :=
    preOverflow_some cfg datos f pre hof hno hpre
  have hr0 : r ∈ akeys datos.pvr := by
    rw [hrt] at hr
    unfold rutasCubiertas at hr
    exact List.mem_of_mem_filter hr
  obtain ⟨c2, cs2, hpc3, ho2, ht2⟩ :=
    overflowEntries_ok_lookup datos.distancias (akeys datos.distancias) f
      (akeys datos.pvr) ocs ots hoe r hr0
  rw [hpc] at hpc3
  injection hpc3 with hc hcs
  rw [← hc, ← hcs, hm] at ho2 ht2
  have ho3 : alookup ocs r = some (.fin (round2 (f * m))) := by
    rw [ho2]
    rfl
  have ht3 : alookup ots r = some (.fin (round2 (3 * (f * m)))) := by
    rw [ht2]
    rfl
  have hld : mlookup st.distancias overflowId r = some (.fin (round2 (f * m))) := by
    unfold mlookup
    rw [hdist, hpd, alookup_append_right _ _ _ hno, alookup_cons, if_pos rfl]
    exact ho3
  refine ⟨?_, ?_, hld, ?_⟩
  · rw [hpat, hpp]
    exact List.mem_append_right _ (List.mem_cons_self _ _)
  · rw [hcaps, hpc2]
    exact alookup_upsert_self _ _ _
  · unfold matrizA
    cases hobj : cfg.objetivo with
    | distancia =>
      refine compatible_true cfg st.distancias st.tiempos r overflowId
        (round2 (f * m)) ?_ ?_
      · rw [costosActivos_distancia _ _ _ hobj]
        exact hld
      · cases hmd : cfg.max_distance_km with
        | none => exact pasaUmbral_sin_umbral _ _ _ _ hmd
        | some u =>
          exact pasaUmbral_distancia_le _ _ _ _ u (round2 (f * m)) hobj hmd hld
            (hthr u hmd hobj)
    | tiempo =>
      refine compatible_true cfg st.distancias st.tiempos r overflowId
        (round2 (3 * (f * m))) ?_ (pasaUmbral_tiempo _ _ _ _ hobj)
      rw [costosActivos_tiempo _ _ _ hobj]
      unfold mlookup
      rw [htiem, hpt, alookup_upsert_self]
      exact ht3

/-- C5 (witness): the amended statement instantiated on the toy instance
with overflow factor 2 and no threshold: the overflow entry for R1 is
round(2 * 15, 2) = 30 and A[R1, overflow] = 1. -/
theorem C5_overflow_compatible_witness :
    (cfgOverToy.overflow_penalty_km = some 2 ∧
      overflowId ∉ akeys datosToy.distancias ∧
      ("R1" : String) ∈ stOverToy.rutas ∧
      presentCosts datosToy.distancias (akeys datosToy.distancias) "R1"
        = [.fin 10, .fin 15] ∧
      [CostVal.fin 15].foldl CostVal.maxv (.fin 10) = .fin 15 ∧
      round2 (2 * 15) = 30) ∧
    (overflowId ∈ stOverToy.patios ∧
      alookup stOverToy.capacidades overflowId = some 1000000000 ∧
      mlookup stOverToy.distancias overflowId "R1" = some (.fin (round2 (2 * 15))) ∧
      matrizA cfgOverToy stOverToy "R1" overflowId = true) :=
  ⟨by with_unfolding_all decide,
   C5_overflow_compatible cfgOverToy datosToy stOverToy 2 "R1" (.fin 10) [.fin 15] 15
     (by with_unfolding_all decide) (by with_unfolding_all decide)
     (cargarDatos_eq_ok cfgOverToy datosToy (by with_unfolding_all decide))
     (by with_unfolding_all decide) (by with_unfolding_all decide)
     (by with_unfolding_all decide)
     (fun u hu _ =>
       Option.noConfusion (show (Option.none : Option ℚ) = some u from hu))⟩

theorem shadowRowFor_campos (oracle : Oracle) (datos : Datos) (bs bo : ℚ)
    (pc : String × ℤ) :
    (shadowRowFor oracle datos bs bo pc).patio_id = pc.1 ∧
    ( shadowRowFor oracle datos bs bo pc).scale_base = bs ∧
    (shadowRowFor oracle datos bs bo pc).base_capacity = pc.2 ∧
    (shadowRowFor oracle datos bs bo pc).base_objective_km = bo := by
  unfold shadowRowFor
  cases h : cargarDatos (cfgShadow bs pc.1 pc.2) datos with
  | error e =>
    rw [exceptCases_error]
    exact ⟨rfl, rfl, rfl, rfl⟩
  | ok st =>
    rw [exceptCases_ok]
    cases h2 : oracle (cfgShadow bs pc.1 pc.2) st with
    | none =>
      rw [optElim_none]
      exact ⟨rfl, rfl, rfl, rfl⟩
    | some x =>
      rw [optElim_some]
      exact ⟨rfl, rfl, rfl, rfl⟩

theorem shadowRowFor_delta (oracle : Oracle) (datos : Datos) (bs bo : ℚ)
    (pc : String × ℤ) (st2 : LoadedState) (x2 : String → String → ℚ)
    (h1 : cargarDatos (cfgShadow bs pc.1 pc.2) datos = .ok st2)
    (h2 : oracle (cfgShadow bs pc.1 pc.2) st2 = some x2) :
    (shadowRowFor oracle datos bs bo pc).objective_with_plus1
      = some (objectiveValue (cfgShadow bs pc.1 pc.2) st2 x2) ∧
    (shadowRowFor oracle datos bs bo pc).delta_objective_km
      = some (bo - objectiveValue (cfgShadow bs pc.1 pc.2) st2 x2) := by
  unfold shadowRowFor
  rw [h1, exceptCases_ok, h2, optElim_some]
  exact ⟨rfl, rfl⟩

/-- C6 (counterexample): on datosSinCap the baseline model has its unique
optimum route all 12 buses of R1 through depot P2, a depot that appears in
the cost matrices only (no capacity entry, so its constraint uses the
default 15). The solution xSinCap the oracle returns is feasible and
optimal (any feasible assignment costs at least 12, and P1 costs 100 per
bus), and it is also what a solver would return for the perturbed Stage B
models. Yet the Stage B table perturbs exactly the depots of the baseline
capacity table — only P1 — and never the solution depot P2, refuting the
claim that every depot present in the baseline solution is perturbed. -/
theorem C6_contraejemplo :
    cargarDatos (cfgSens 1 none "cbc") datosSinCap = .ok stSinCap ∧
    Factible (cfgSens 1 none "cbc") stSinCap xSinCap zCero ∧
    (∀ y z, Factible (cfgSens 1 none "cbc") stSinCap y z →
      objectiveValue (cfgSens 1 none "cbc") stSinCap xSinCap
        ≤ objectiveValue (cfgSens 1 none "cbc") stSinCap y) ∧
    (exportarAsigs (cfgSens 1 none "cbc") stSinCap xSinCap).map
        (fun a => (a.geo_code, a.patio_id, a.buses)) = [("R1", "P2", 12)] ∧
    ("P2" : String) ∈ (exportarAsigs (cfgSens 1 none "cbc") stSinCap xSinCap).map
        Asig.patio_id ∧
    Option.map (fun rows => rows.map ShadowRow.patio_id)
        (cmdSensitivity oracleSinCap datosSinCap [1] none "cbc").2.1
      = some ["P1"] ∧
    ¬ (("P2" : String) ∈ ["P1"]) := by
  refine ⟨by with_unfolding_all decide, by with_unfolding_all decide, ?_,
    by with_unfolding_all decide, by with_unfolding_all decide,
    by with_unfolding_all decide, by with_unfolding_all decide⟩
  intro y z hf
  rw [factible_iff] at hf
  obtain ⟨hnn, _, hdem, _, _, _, _⟩ := hf
  have hr1 : ("R1" : String) ∈ stSinCap.rutas := by with_unfolding_all decide
  have hp1 : ("P1" : String) ∈ stSinCap.patios := by with_unfolding_all decide
  have hp2 : ("P2" : String) ∈ stSinCap.patios := by with_unfolding_all decide
  have hd1 := hdem "R1" hr1
  have e1 : sumxCompatPatios (cfgSens 1 none "cbc") stSinCap y "R1"
      = y "R1" "P1" + (y "R1" "P2" + 0) := by
    with_unfolding_all rfl
  have ep1 : (pvrOf stSinCap "R1" : ℚ) = 12 := by with_unfolding_all decide
  have exo : objectiveValue (cfgSens 1 none "cbc") stSinCap xSinCap = 12 := by
    with_unfolding_all decide
  have eo : objectiveValue (cfgSens 1 none "cbc") stSinCap y
      = (100 * y "R1" "P1" + (1 * y "R1" "P2" + 0)) + 0 := by
    with_unfolding_all rfl
  rw [e1, ep1] at hd1
  rw [exo, eo]
  have ha := hnn "R1" hr1 "P1" hp1
  have hb := hnn "R1" hr1 "P2" hp2
  linarith

/-- C6 (amended): whenever Stage B produces a shadow table, the baseline is
the entry of the feasible-models dict at the largest feasible scale; the
baseline state and solution come from a successful load and an optimal
solve at that scale; and the table has exactly one row per entry of the
baseline model's capacity dict (not per depot of the baseline solution),
each row perturbing only that depot's capacity to its baseline value plus
one at the same scale with overflow and K disabled, and recording, when the
perturbed model loads and solves, delta = baseline objective minus
perturbed objective. -/
theorem C6_sombra (oracle : Oracle) (datos : Datos) (scales : List ℚ)
    (overflow : Option ℚ) (solver : String) (srows : List ShadowRow)
    (feas : FeasList)
    (hfe : feas = (sweepFold oracle datos overflow solver
      (if scales = [] then [1] else scales)).2)
    (hs : (cmdSensitivity oracle datos scales overflow solver).2.1 = some srows) :
    ∃ st x,
      alookup feas (maxScale feas) = some (st, x) ∧
      maxScale feas ∈ feas.map Prod.fst ∧
      (∀ s ∈ feas.map Prod.fst, s ≤ maxScale feas) ∧
      cargarDatos (cfgSens (maxScale feas) overflow solver) datos = .ok st ∧
      oracle (cfgSens (maxScale feas) overflow solver) st = some x ∧
      srows = st.capacidades.map (shadowRowFor oracle datos (maxScale feas)
        (objectiveValue (cfgSens (maxScale feas) overflow solver) st x)) ∧
      ∀ pc ∈ st.capacidades,
        (cfgShadow (maxScale feas) pc.1 pc.2).capacity_override = [(pc.1, pc.2 + 1)] ∧
        (cfgShadow (maxScale feas) pc.1 pc.2).cap_multiplier = maxScale feas ∧
        (cfgShadow (maxScale feas) pc.1 pc.2).overflow_penalty_km = none ∧
        (cfgShadow (maxScale feas) pc.1 pc.2).kmax = none ∧
        (shadowRowFor oracle datos (maxScale feas)
          (objectiveValue (cfgSens (maxScale feas) overflow solver) st x) pc).patio_id
          = pc.1 ∧
        (shadowRowFor oracle datos (maxScale feas)
          (objectiveValue (cfgSens (maxScale feas) overflow solver) st x) pc).scale_base
          = maxScale feas ∧
        (shadowRowFor oracle datos (maxScale feas)
          (objectiveValue (cfgSens (maxScale feas) overflow solver) st x)
            pc).base_capacity = pc.2 ∧
        (shadowRowFor oracle datos (maxScale feas)
          (objectiveValue (cfgSens (maxScale feas) overflow solver) st x)
            pc).base_objective_km
          = objectiveValue (cfgSens (maxScale feas) overflow solver) st x ∧
        ∀ st2 x2,
          cargarDatos (cfgShadow (maxScale feas) pc.1 pc.2) datos = .ok st2 →
          oracle (cfgShadow (maxScale feas) pc.1 pc.2) st2 = some x2 →
          (shadowRowFor oracle datos (maxScale feas)
            (objectiveValue (cfgSens (maxScale feas) overflow solver) st x)
              pc).objective_with_plus1
            = some (objectiveValue (cfgShadow (maxScale feas) pc.1 pc.2) st2 x2) ∧
          (shadowRowFor oracle datos (maxScale feas)
            (objectiveValue (cfgSens (maxScale feas) overflow solver) st x)
              pc).delta_objective_km
            = some (objectiveValue (cfgSens (maxScale feas) overflow solver) st x
                - objectiveValue (cfgShadow (maxScale feas) pc.1 pc.2) st2 x2) := by
  have hsb : stageB oracle datos overflow solver feas = some srows := by
    rw [hfe]
    exact hs
  cases hfc : feas with
  | nil =>
    rw [hfc] at hsb
    exact absurd hsb (by simp [stageB])
  | cons f fs =>
    rw [hfc, stageB_cons] at hsb
    cases hal : alookup (f :: fs) (maxScale (f :: fs)) with
    | none =>
      rw [hal, optElim_none] at hsb
      exact absurd hsb (by simp)
    | some st_x =>
      obtain ⟨st, x⟩ := st_x
      rw [hal, optElim_some] at hsb
      have hmem : (maxScale (f :: fs), (st, x)) ∈ f :: fs := alookup_mem _ _ _ hal
      rw [hfc] at hfe
      have hinv := sweepFold_feas_inv oracle datos overflow solver
        (if scales = [] then [1] else scales) (maxScale (f :: fs), (st, x))
        (hfe ▸ hmem)
      refine ⟨st, x, rfl, maxScale_mem (f :: fs) (by simp), ?_, hinv.1, hinv.2,
        ?_, ?_⟩
      · intro s hsm
        obtain ⟨e, he, hse⟩ := List.mem_map.1 hsm
        rw [← hse]
        exact le_maxScale (f :: fs) e he
      · injection hsb with h6
        exact h6.symm
      · intro pc _
        obtain ⟨hcp1, hcp2, hcp3, hcp4⟩ := shadowRowFor_campos oracle datos
          (maxScale (f :: fs))
          (objectiveValue (cfgSens (maxScale (f :: fs)) overflow solver) st x) pc
        refine ⟨rfl, rfl, rfl, rfl, hcp1, hcp2, hcp3, hcp4, ?_⟩
        intro st2 x2 hld2 hor2
        exact shadowRowFor_delta oracle datos (maxScale (f :: fs))
          (objectiveValue (cfgSens (maxScale (f :: fs)) overflow solver) st x)
          pc st2 x2 hld2 hor2

set_option maxRecDepth 10000 in
/-- C6 (witness): the amended Stage B description instantiated on the toy
sweep at scale 1, whose table has one row per capacity-table depot (P1 and
P2). -/
theorem C6_sombra_witness :
    (feasToy = (sweepFold oracleToy datosToy none "cbc"
        (if ([1] : List ℚ) = [] then [1] else [1])).2 ∧
      (cmdSensitivity oracleToy datosToy [1] none "cbc").2.1 = some srowsToy) ∧
    (∃ st x,
      alookup feasToy (maxScale feasToy) = some (st, x) ∧
      maxScale feasToy ∈ feasToy.map Prod.fst ∧
      (∀ s ∈ feasToy.map Prod.fst, s ≤ maxScale feasToy) ∧
      cargarDatos (cfgSens (maxScale feasToy) none "cbc") datosToy = .ok st ∧
      oracleToy (cfgSens (maxScale feasToy) none "cbc") st = some x ∧
      srowsToy = st.capacidades.map (shadowRowFor oracleToy datosToy (maxScale feasToy)
        (objectiveValue (cfgSens (maxScale feasToy) none "cbc") st x)) ∧
      ∀ pc ∈ st.capacidades,
        (cfgShadow (maxScale feasToy) pc.1 pc.2).capacity_override = [(pc.1, pc.2 + 1)] ∧
        (cfgShadow (maxScale feasToy) pc.1 pc.2).cap_multiplier = maxScale feasToy ∧
        (cfgShadow (maxScale feasToy) pc.1 pc.2).overflow_penalty_km = none ∧
        (cfgShadow (maxScale feasToy) pc.1 pc.2).kmax = none ∧
        (shadowRowFor oracleToy datosToy (maxScale feasToy)
          (objectiveValue (cfgSens (maxScale feasToy) none "cbc") st x) pc).patio_id
          = pc.1 ∧
        (shadowRowFor oracleToy datosToy (maxScale feasToy)
          (objectiveValue (cfgSens (maxScale feasToy) none "cbc") st x) pc).scale_base
          = maxScale feasToy ∧
        (shadowRowFor oracleToy datosToy (maxScale feasToy)
          (objectiveValue (cfgSens (maxScale feasToy) none "cbc") st x)
            pc).base_capacity = pc.2 ∧
        (shadowRowFor oracleToy datosToy (maxScale feasToy)
          (objectiveValue (cfgSens (maxScale feasToy) none "cbc") st x)
            pc).base_objective_km
          = objectiveValue (cfgSens (maxScale feasToy) none "cbc") st x ∧
        ∀ st2 x2,
          cargarDatos (cfgShadow (maxScale feasToy) pc.1 pc.2) datosToy = .ok st2 →
          oracleToy (cfgShadow (maxScale feasToy) pc.1 pc.2) st2 = some x2 →
          (shadowRowFor oracleToy datosToy (maxScale feasToy)
            (objectiveValue (cfgSens (maxScale feasToy) none "cbc") st x)
              pc).objective_with_plus1
            = some (objectiveValue (cfgShadow (maxScale feasToy) pc.1 pc.2) st2 x2) ∧
          (shadowRowFor oracleToy datosToy (maxScale feasToy)
            (objectiveValue (cfgSens (maxScale feasToy) none "cbc") st x)
              pc).delta_objective_km
            = some (objectiveValue (cfgSens (maxScale feasToy) none "cbc") st x
                - objectiveValue (cfgShadow (maxScale feasToy) pc.1 pc.2) st2 x2)) :=
  ⟨⟨by with_unfolding_all rfl, by with_unfolding_all decide⟩,
   C6_sombra oracleToy datosToy [1] none "cbc" srowsToy feasToy
     (by with_unfolding_all rfl) (by with_unfolding_all decide)⟩
